import Mathlib

/-!
# Verification of the complaint analysis & normalization pipeline

This file is a shallow embedding, in Lean 4, of the core pipeline of
`llm_service/main.py`: the schema normalizer (`_normalize_model_payload`,
`_normalize_tuples`, `_normalize_aspects_count`, ...), the mandatory slot
enforcer (`_enforce_mandatory_slots`), the deterministic fallback analyzer
(`_fallback_analysis` and its `_detect_*` / `_collect_*` helpers), the retry
controller (`_call_model`) and the pydantic response validation
(`AnalyzeResponse.model_validate` / `model_dump`).

Python values flowing through the pipeline (parsed JSON objects, the
`known_fields` mapping, the working dictionary of the normalizer) are modelled
by the inductive type `Val`; Python dictionaries are association lists
(`List (String × Val)`) with first-key lookup and replace-first-or-append
update, which matches the observable behaviour of insertion-ordered Python
dicts with unique keys.  Strings keep Python semantics where the code depends
on them: `str.strip` (`pyStrip`), `str.lower`/`str.upper` for the Latin,
Cyrillic and Kazakh-specific letters the system handles, truthiness
(`pyTruthy`), and `str(x)` (`pyStr`, whose exact spelling for lists/dicts is
abbreviated: the embedded code only ever observes emptiness of the result).
-/

namespace Pipeline

/-- A Python/JSON value as it occurs in the pipeline: `None`, booleans,
integers, floats (carried as mantissa/decimal-exponent; the pipeline never
inspects a float beyond truthiness and `str`), strings, lists and
string-keyed dictionaries. -/
inductive Val where
  | none : Val
  | bool (b : Bool) : Val
  | int (n : Int) : Val
  | float (m : Int) (e : Nat) : Val
  | str (s : String) : Val
  | list (xs : List Val) : Val
  | dict (kvs : List (String × Val)) : Val

/-- A Python dictionary with string keys (insertion ordered). -/
abbrev Dict := List (String × Val)

/-- First-match lookup, i.e. `d[k]` / `d.get(k)` on a dict with unique keys. -/
def dGet : Dict → String → Option Val
  | [], _ => Option.none
  | (k', v) :: rest, k => if k' = k then some v else dGet rest k

/-- `d.get(k)`: Python returns `None` both for a missing key and for a stored
`None`. -/
def pyGet (d : Dict) (k : String) : Val :=
  (dGet d k).getD Val.none

/-- Python `v == s` for a string literal `s`: true exactly when `v` is that
string (no other JSON value compares equal to a `str`). -/
def valEqStr (v : Val) (s : String) : Bool :=
  match v with
  | .str t => t = s
  | _ => false

/-- `d[k] = v`: replace the value at the first occurrence of `k` (keeping its
position), or append a new entry. -/
def dSet : Dict → String → Val → Dict
  | [], k, v => [(k, v)]
  | (k', v') :: rest, k, v =>
    if k' = k then (k, v) :: rest else (k', v') :: dSet rest k v

/-- Python truthiness of a value. -/
def pyTruthy : Val → Bool
  | .none => false
  | .bool b => b
  | .int n => n != 0
  | .float m _ => m != 0
  | .str s => s ≠ ""
  | .list xs => !xs.isEmpty
  | .dict kvs => !kvs.isEmpty

/-- Python whitespace stripped by `str.strip()` (the ASCII portion; the inputs
handled by the system never carry the exotic Unicode spaces). -/
def isPySpace (c : Char) : Bool :=
  c = ' ' || c = '\t' || c = '\n' || c = '\r' || c.val = 11 || c.val = 12

/-- Drop trailing whitespace characters. -/
def dropTrail (l : List Char) : List Char :=
  (l.reverse.dropWhile isPySpace).reverse

/-- Strip leading and trailing whitespace from a character list. -/
def stripChars (l : List Char) : List Char :=
  dropTrail (l.dropWhile isPySpace)

/-- Python `s.strip()`. -/
def pyStrip (s : String) : String :=
  String.mk (stripChars s.data)

/-- `str.lower()` on one character, for the alphabets the pipeline handles:
ASCII, Russian Cyrillic (`А`–`Я`, `Ё`) and the Kazakh-specific letters. -/
def pyLowerChar (c : Char) : Char :=
  if 'A' ≤ c ∧ c ≤ 'Z' then Char.ofNat (c.toNat + 32)
  else if c.val ≥ 0x410 ∧ c.val ≤ 0x42F then Char.ofNat (c.toNat + 32)
  else if c.val = 0x401 then Char.ofNat 0x451      -- Ё → ё
  else if c.val = 0x4D8 then Char.ofNat 0x4D9      -- Ә → ә
  else if c.val = 0x4E8 then Char.ofNat 0x4E9      -- Ө → ө
  else if c.val = 0x4AE then Char.ofNat 0x4AF      -- Ү → ү
  else if c.val = 0x4B0 then Char.ofNat 0x4B1      -- Ұ → ұ
  else if c.val = 0x49A then Char.ofNat 0x49B      -- Қ → қ
  else if c.val = 0x492 then Char.ofNat 0x493      -- Ғ → ғ
  else if c.val = 0x4A2 then Char.ofNat 0x4A3      -- Ң → ң
  else if c.val = 0x4BA then Char.ofNat 0x4BB      -- Һ → һ
  else if c.val = 0x406 then Char.ofNat 0x456      -- І → і
  else c

/-- `str.upper()` on one character (same alphabets). -/
def pyUpperChar (c : Char) : Char :=
  if 'a' ≤ c ∧ c ≤ 'z' then Char.ofNat (c.toNat - 32)
  else if c.val ≥ 0x430 ∧ c.val ≤ 0x44F then Char.ofNat (c.toNat - 32)
  else if c.val = 0x451 then Char.ofNat 0x401
  else if c.val = 0x4D9 then Char.ofNat 0x4D8
  else if c.val = 0x4E9 then Char.ofNat 0x4E8
  else if c.val = 0x4AF then Char.ofNat 0x4AE
  else if c.val = 0x4B1 then Char.ofNat 0x4B0
  else if c.val = 0x49B then Char.ofNat 0x49A
  else if c.val = 0x493 then Char.ofNat 0x492
  else if c.val = 0x4A3 then Char.ofNat 0x4A2
  else if c.val = 0x4BB then Char.ofNat 0x4BA
  else if c.val = 0x456 then Char.ofNat 0x406
  else c

/-- Python `s.lower()`. -/
def pyLower (s : String) : String :=
  String.mk (s.data.map pyLowerChar)

/-- Python `s.upper()`. -/
def pyUpper (s : String) : String :=
  String.mk (s.data.map pyUpperChar)

/-- Python `str(x)`.  Exact for `None`/bools/ints/strings; for floats, lists
and dicts the pipeline only ever observes that the result is a non-empty
string without surrounding whitespace, so their rendering is abbreviated. -/
def pyStr : Val → String
  | .none => "None"
  | .bool true => "True"
  | .bool false => "False"
  | .int n => toString n
  | .float m e => toString m ++ "e-" ++ toString e
  | .str s => s
  | .list _ => "[...]"
  | .dict _ => "\x7b...\x7d"

/-! ## Constants of `llm_service/main.py` -/

/-- `PRIORITY_VALUES`. -/
def PRIORITY_VALUES : List String := ["low", "medium", "high", "critical"]

/-- `ASPECT_NAMES`. -/
def ASPECT_NAMES : List String :=
  ["punctuality", "crowding", "safety", "staff", "condition", "payment", "other"]

/-- `TUPLE_OBJECT_TYPES`. -/
def TUPLE_OBJECT_TYPES : List String := ["route", "bus_plate"]

/-- `MANDATORY_SLOTS`. -/
def MANDATORY_SLOTS : List String := ["route_numbers", "places", "reported_time"]

/-- `CLARIFICATION_TEMPLATES[slot]["kk"]`. -/
def clarificationKk (slot : String) : Option String :=
  if slot = "route_numbers" then
    some ("Маршрут нөмірін немесе автобустың мемлекеттік нөмірін көрсетіңіз. "
      ++ "Егер ол мәтінде болмаған болса, шағымды осы дерекпен толықтырыңыз.")
  else if slot = "places" then
    some ("Оқиға болған орынды (аялдама, көше атауы) нақты жазыңыз және "
      ++ "шағымыңызға осы мәліметті қосып қайта жіберіңіз.")
  else if slot = "reported_time" then
    some ("Оқиға болған күн мен уақытты көрсетіңіз (мысалы, 2024-04-18 08:30). "
      ++ "Осы мәліметпен шағымды қайта жіберіңіз.")
  else Option.none

/-- `CLARIFICATION_TEMPLATES[slot]["ru"]`. -/
def clarificationRu (slot : String) : Option String :=
  if slot = "route_numbers" then
    some ("Укажите номер маршрута или госномер автобуса. Если его не было, "
      ++ "отправьте краткое уточнение с этим номером.")
  else if slot = "places" then
    some ("Укажите точное место происшествия (остановка, улица). Добавьте это "
      ++ "уточнение к жалобе и отправьте снова.")
  else if slot = "reported_time" then
    some ("Укажите дату и время происшествия (например, 2024-04-18 08:30). "
      ++ "Добавьте это уточнение и отправьте жалобу повторно.")
  else Option.none

/-- An `Option String` (e.g. `templates.get("ru")`) stored into a dict slot:
`None ↦ Val.none`, a string stays a string. -/
def optStrToVal : Option String → Val
  | Option.none => Val.none
  | some s => Val.str s

/-! ## `llm_service/main.py` coercion helpers -/

/-- `AnalyzeRequest`: the immutable request.  `description` is a string,
`known_fields` an arbitrary string-keyed mapping, `submission_time_iso` an
optional string. -/
structure AnalyzeRequest where
  description : String
  known_fields : Dict
  submission_time_iso : Option String

/-- `_ensure_string(value, fallback="")`: strings are stripped (empty ⇒
fallback), `None` ⇒ fallback, anything else goes through `str(value).strip()`
(empty ⇒ fallback). -/
def ensureString (value : Val) (fallback : String) : String :=
  match value with
  | .str s =>
    let candidate := pyStrip s
    if candidate ≠ "" then candidate else fallback
  | .none => fallback
  | v =>
    let candidate := pyStrip (pyStr v)
    if candidate ≠ "" then candidate else fallback

/-- `_ensure_str_list(raw)`: keep only string elements of a list, stripped and
non-empty; anything that is not a list gives `[]`. -/
def ensureStrList (raw : Val) : List String :=
  match raw with
  | .list xs =>
    xs.filterMap fun item =>
      match item with
      | .str s =>
        let stripped := pyStrip s
        if stripped ≠ "" then some stripped else Option.none
      | _ => Option.none
  | _ => []

/-- `_normalize_aspects(raw)`: keep enumerated string aspects, defaulting to
`["other"]` when the filtered list is empty. -/
def normalizeAspects (raw : Val) : List String :=
  let aspects :=
    match raw with
    | .list xs =>
      xs.filterMap fun item =>
        match item with
        | .str s => if ASPECT_NAMES.contains s then some s else Option.none
        | _ => Option.none
    | _ => []
  if aspects.isEmpty then ["other"] else aspects

/-- Python `isinstance(v, int)` — `bool` is a subclass of `int` in Python. -/
def isPyInt : Val → Bool
  | .int _ => true
  | .bool _ => true
  | _ => false

/-- Python `v >= 0` for the values passing `isPyInt` (False = 0, True = 1). -/
def pyIntGe0 : Val → Bool
  | .int n => 0 ≤ n
  | .bool _ => true
  | _ => false

/-- The integer a falsy counter value contributes to `+= 1`
(`False + 1 = 1`, `0 + 1 = 1`). -/
def pyAsInt : Val → Int
  | .int n => n
  | .bool true => 1
  | .bool false => 0
  | _ => 0

/-- The copy step of `_normalize_aspects_count`: `result[name] = raw.get(name)`
when it is a non-negative `int`, else the initial `0`. -/
def acEntry (raw : Val) (name : String) : Val :=
  match raw with
  | .dict kvs =>
    match dGet kvs name with
    | some v => if isPyInt v && pyIntGe0 v then v else Val.int 0
    | Option.none => Val.int 0
  | _ => Val.int 0

/-- The recompute guard of `_normalize_aspects_count`:
`not any(result.values()) and aspects`. -/
def acRecompute (raw : Val) (aspects : List String) : Bool :=
  !(ASPECT_NAMES.any fun n => pyTruthy (acEntry raw n)) && !aspects.isEmpty

/-- The final value of counter `name`: when the recompute loop
(`for aspect in aspects: result[aspect] += 1`) runs, each key receives its
copied value plus the number of occurrences of the key in `aspects`. -/
def acFinal (raw : Val) (aspects : List String) (name : String) : Val :=
  if acRecompute raw aspects then
    Val.int (pyAsInt (acEntry raw name) + (aspects.count name : Int))
  else acEntry raw name

/-- `_normalize_aspects_count(raw, aspects)` as the resulting dict (keys in
`ASPECT_NAMES` order, exactly as `{name: 0 for name in ASPECT_NAMES}` updated
in place). -/
def normalizeAspectsCount (raw : Val) (aspects : List String) : Dict :=
  ASPECT_NAMES.map fun n => (n, acFinal raw aspects n)

/-- One list of `_normalize_extracted_fields`:
`[str(item).strip() for item in raw[key] if str(item).strip()]` guarded by
`isinstance(raw.get(key), list)`. -/
def extractedList (raw : Val) (key : String) : List String :=
  match raw with
  | .dict kvs =>
    match dGet kvs key with
    | some (.list xs) =>
      xs.filterMap fun item =>
        let c := pyStrip (pyStr item)
        if c ≠ "" then some c else Option.none
    | _ => []
  | _ => []

/-- `_normalize_extracted_fields(raw)`. -/
def normalizeExtractedFields (raw : Val) : Dict :=
  [("route_numbers", Val.list ((extractedList raw "route_numbers").map Val.str)),
   ("bus_plates", Val.list ((extractedList raw "bus_plates").map Val.str)),
   ("places", Val.list ((extractedList raw "places").map Val.str))]

/-- `_normalize_known_field_list(raw)`: `None` ⇒ `[]`; a string becomes a
one-element list when non-empty after stripping; lists keep the non-empty
`_ensure_string` of each element; dicts do the same over their values; any
other shape (ints, floats, bools) is silently dropped. -/
def normalizeKnownFieldList (raw : Val) : List String :=
  match raw with
  | .none => []
  | .str s =>
    let cleaned := pyStrip s
    if cleaned ≠ "" then [cleaned] else []
  | .list xs =>
    xs.filterMap fun item =>
      let cleaned := ensureString item ""
      if cleaned ≠ "" then some cleaned else Option.none
  | .dict kvs =>
    kvs.filterMap fun kv =>
      let cleaned := ensureString kv.2 ""
      if cleaned ≠ "" then some cleaned else Option.none
  | _ => []

/-- `_default_time(payload)`: the first non-empty of the stripped submission
timestamp, known `reported_time`, known `time`; else `"unspecified"`. -/
def defaultTime (p : AnalyzeRequest) : String :=
  let c1 := ensureString (optStrToVal p.submission_time_iso) ""
  if c1 ≠ "" then c1 else
  let c2 := ensureString (pyGet p.known_fields "reported_time") ""
  if c2 ≠ "" then c2 else
  let c3 := ensureString (pyGet p.known_fields "time") ""
  if c3 ≠ "" then c3 else "unspecified"

/-! ## `_normalize_tuples` -/

/-- One entry of the `objects` list: kept only when its (defaulted) `type` is
in `TUPLE_OBJECT_TYPES` and its `value` is non-empty. -/
def normObject (obj : Val) : Option Val :=
  match obj with
  | .dict okvs =>
    let objType := ensureString (pyGet okvs "type") "route"
    if !TUPLE_OBJECT_TYPES.contains objType then Option.none
    else
      let value := ensureString (pyGet okvs "value") ""
      if value = "" then Option.none
      else some (Val.dict [("type", Val.str objType), ("value", Val.str value)])
  | _ => Option.none

/-- The normalized `place` of one tuple: a valid `{kind, value}` dict is kept;
otherwise the first known-facts place (kind defaulted `stop`) when one exists,
else `None`. -/
def normPlace (placeRaw : Val) (p : AnalyzeRequest) : Val :=
  let substituted :=
    match normalizeKnownFieldList (pyGet p.known_fields "places") with
    | [] => Val.none
    | kp :: _ => Val.dict [("kind", Val.str "stop"), ("value", Val.str kp)]
  match placeRaw with
  | .dict pkvs =>
    let kind := ensureString (pyGet pkvs "kind") ""
    let value := ensureString (pyGet pkvs "value") ""
    if (kind = "stop" || kind = "street" || kind = "crossroad") && value ≠ "" then
      Val.dict [("kind", Val.str kind), ("value", Val.str value)]
    else substituted
  | _ => substituted

/-- One iteration of the `_normalize_tuples` loop: non-dict items are skipped,
dict items always produce a normalized tuple dict. -/
def normTupleItem (p : AnalyzeRequest) (item : Val) : Option Val :=
  match item with
  | .dict kvs =>
    let objectsRaw := pyGet kvs "objects"
    let normalizedObjects :=
      match objectsRaw with
      | .list objs => objs.filterMap normObject
      | _ => []
    let place := normPlace (pyGet kvs "place") p
    let timeValue := ensureString (pyGet kvs "time") (defaultTime p)
    let aspects := normalizeAspects (pyGet kvs "aspects")
    some (Val.dict
      [("objects", Val.list normalizedObjects),
       ("time", Val.str timeValue),
       ("place", place),
       ("aspects", Val.list (aspects.map Val.str))])
  | _ => Option.none

/-- `_normalize_tuples(raw, payload)`. -/
def normalizeTuples (raw : Val) (p : AnalyzeRequest) : List Val :=
  match raw with
  | .list items => items.filterMap (normTupleItem p)
  | _ => []

/-- The `aspects` of an already-normalized tuple dict, as read by
`item.get("aspects", [])` (always a list of aspect-name strings for the dicts
built by `_normalize_tuples`). -/
def tupleAspects (item : Val) : List String :=
  match item with
  | .dict kvs =>
    match dGet kvs "aspects" with
    | some (.list xs) =>
      xs.filterMap fun a => match a with | .str s => some s | _ => Option.none
    | _ => []
  | _ => []

/-! ## `_enforce_mandatory_slots` -/

/-- Iterating a value where the code guarded with `... or []`: at every such
call site the value is either a list or falsy (theorems about arbitrary
records carry this as the `enforceInputOk` hypothesis; iterating a truthy
non-sequence would raise `TypeError` in Python). -/
def iterVal : Val → List Val
  | .list xs => xs
  | _ => []

/-- `extracted.get(key)` where
`extracted = normalized.get("extracted_fields") or {}`. -/
def extractedGet (n : Dict) (key : String) : Val :=
  match pyGet n "extracted_fields" with
  | .dict kvs => pyGet kvs key
  | _ => Val.none

/-- `[slot for slot in _ensure_str_list(normalized.get("missing_slots")) if slot]`. -/
def existingMissing (n : Dict) : List String :=
  (ensureStrList (pyGet n "missing_slots")).filter fun slot => slot ≠ ""

/-- The route candidate pool (only its emptiness is consumed): `route`-typed
tuple object values, known-facts route list, extracted route list. -/
def routeCandidates (n : Dict) (p : AnalyzeRequest) : List String :=
  ((iterVal (pyGet n "tuples")).flatMap fun item =>
    match item with
    | .dict kvs =>
      (iterVal (pyGet kvs "objects")).filterMap fun obj =>
        match obj with
        | .dict okvs =>
          if valEqStr (pyGet okvs "type") "route" then
            let value := ensureString (pyGet okvs "value") ""
            if value ≠ "" then some value else Option.none
          else Option.none
        | _ => Option.none
    | _ => [])
  ++ normalizeKnownFieldList (pyGet p.known_fields "route_numbers")
  ++ normalizeKnownFieldList (extractedGet n "route_numbers")

/-- The place candidate pool: tuple place values, known-facts places,
extracted places. -/
def placeCandidates (n : Dict) (p : AnalyzeRequest) : List String :=
  ((iterVal (pyGet n "tuples")).filterMap fun item =>
    match item with
    | .dict kvs =>
      match pyGet kvs "place" with
      | .dict pkvs =>
        let value := ensureString (pyGet pkvs "value") ""
        if value ≠ "" then some value else Option.none
      | _ => Option.none
    | _ => Option.none)
  ++ normalizeKnownFieldList (pyGet p.known_fields "places")
  ++ normalizeKnownFieldList (extractedGet n "places")

/-- The sentinel strings excluded from time candidates. -/
def TIME_SENTINELS : List String := ["", "unspecified", "unknown", "submission_time"]

/-- The time candidate pool: tuple `time` values that do not lower-case to a
sentinel, plus known-facts `reported_time` / `time`. -/
def timeCandidates (n : Dict) (p : AnalyzeRequest) : List String :=
  ((iterVal (pyGet n "tuples")).filterMap fun item =>
    match item with
    | .dict kvs =>
      let value := ensureString (pyGet kvs "time") ""
      if value ≠ "" then
        if !TIME_SENTINELS.contains (pyLower value) then some value else Option.none
      else Option.none
    | _ => Option.none)
  ++ (["reported_time", "time"].filterMap fun key =>
      let candidate := ensureString (pyGet p.known_fields key) ""
      if candidate ≠ "" then some candidate else Option.none)

/-- The `mandatory_missing` list, in the fixed `MANDATORY_SLOTS` order. -/
def mandatoryMissing (n : Dict) (p : AnalyzeRequest) : List String :=
  (if routeCandidates n p = [] then ["route_numbers"] else [])
  ++ (if placeCandidates n p = [] then ["places"] else [])
  ++ (if timeCandidates n p = [] then ["reported_time"] else [])

/-- The `filtered_existing` loop: drop met mandatory slots, drop duplicates
(keeping first occurrences). -/
def filterExistAux (mm : List String) : List String → List String → List String
  | acc, [] => acc
  | acc, slot :: rest =>
    if MANDATORY_SLOTS.contains slot && !mm.contains slot then
      filterExistAux mm acc rest
    else if acc.contains slot then filterExistAux mm acc rest
    else filterExistAux mm (acc ++ [slot]) rest

/-- `filtered_existing` from the generator-declared list. -/
def filterExist (existing mm : List String) : List String :=
  filterExistAux mm [] existing

/-- The final append loop: unmet mandatory slots not already present, in
`MANDATORY_SLOTS` order. -/
def appendMandatory (mm missing : List String) : List String :=
  MANDATORY_SLOTS.foldl
    (fun acc slot => if mm.contains slot && !acc.contains slot then acc ++ [slot] else acc)
    missing

/-- The Enforcer's final `missing` list. -/
def enforceMissing (n : Dict) (p : AnalyzeRequest) : List String :=
  appendMandatory (mandatoryMissing n p) (filterExist (existingMissing n) (mandatoryMissing n p))

/-- The `if missing:` branch of `_enforce_mandatory_slots`. -/
def enforceMissingBranch (n : Dict) (missing : List String) : Dict :=
  let n1 := dSet n "need_clarification" (Val.bool true)
  let n2 := dSet n1 "missing_slots" (Val.list (missing.map Val.str))
  let firstSlot := missing.headD ""   -- missing[0]; the branch guarantees non-emptiness
  let n3 :=
    if ensureString (pyGet n2 "clarifying_question_ru") "" = "" then
      dSet n2 "clarifying_question_ru" (optStrToVal (clarificationRu firstSlot))
    else n2
  if ensureString (pyGet n3 "clarifying_question_kk") "" = "" then
    dSet n3 "clarifying_question_kk" (optStrToVal (clarificationKk firstSlot))
  else n3

/-- The `else:` branch of `_enforce_mandatory_slots`. -/
def enforceEmptyBranch (n : Dict) : Dict :=
  let n1 := dSet n "missing_slots" (Val.list [])
  let n2 :=
    if pyTruthy (pyGet n1 "need_clarification") && !pyTruthy (pyGet n1 "missing_slots") then
      dSet n1 "need_clarification" (Val.bool false)
    else n1
  if !pyTruthy (pyGet n2 "missing_slots") then
    let n3 :=
      if !pyTruthy (pyGet n2 "clarifying_question_ru") then
        dSet n2 "clarifying_question_ru" Val.none
      else n2
    if !pyTruthy (pyGet n3 "clarifying_question_kk") then
      dSet n3 "clarifying_question_kk" Val.none
    else n3
  else n2

/-- `_enforce_mandatory_slots(normalized, payload)`. -/
def enforceMandatorySlots (n : Dict) (p : AnalyzeRequest) : Dict :=
  let missing := enforceMissing n p
  if missing.isEmpty then enforceEmptyBranch n else enforceMissingBranch n missing

/-- The hypothesis under which the Enforcer's Python code cannot raise while
iterating: `tuples` is a list (or falsy), each dict item's `objects` is a list
(or falsy), and `extracted_fields` is a dict (or falsy).  Every record built
by the Normalizer or dumped from a validated response satisfies it. -/
def enforceInputOk (n : Dict) : Bool :=
  (match pyGet n "tuples" with
   | .list items =>
     items.all fun item =>
       match item with
       | .dict kvs =>
         (match pyGet kvs "objects" with
          | .list _ => true
          | v => !pyTruthy v)
       | _ => true
   | v => !pyTruthy v)
  && (match pyGet n "extracted_fields" with
      | .dict _ => true
      | v => !pyTruthy v)

/-! ## `_build_recommendations`, `_detect_language`, `_normalize_model_payload` -/

/-- `_build_recommendations(priority)` — the `(kk, ru)` lookup pair.  All call
sites pass a validated priority; the catch-all case is unreachable (Python
would raise `KeyError`). -/
def buildRecommendations (priority : String) : String × String :=
  if priority = "critical" then
    ("Жауапты қызметтерге дереу хабарласып, қауіпсіздікті қамтамасыз ету қажет.",
     "Нужно срочно передать информацию экстренным службам и обеспечить безопасность.")
  else if priority = "high" then
    ("Маршрут операторы қадағалауды күшейтіп, жүргізушіге ескерту жасауы тиіс.",
     "Рекомендуется провести проверку маршрута и уведомить водителя о нарушении.")
  else if priority = "medium" then
    ("Оқиғаға талдау жүргізіп, уақытылы қызмет көрсету үшін қосымша бақылау орнатыңыз.",
     "Следует усилить контроль за расписанием и условиями поездки на данном маршруте.")
  else if priority = "low" then
    ("Өтініш журналға жазылды, қайталанса — маршрут операторы қарастырады.",
     "Обращение зафиксировано, при повторении ситуация будет передана оператору маршрута.")
  else ("", "")

/-- The fixed Kazakh-specific letter set of `_detect_language`. -/
def KAZAKH_LETTERS : List Char := ['ә', 'ө', 'ү', 'ұ', 'қ', 'ғ', 'ң', 'һ', 'і']

/-- `_detect_language(lower_text)`: `kk` when any Kazakh-specific letter
occurs in the (already lower-cased) text, else `ru`. -/
def detectLanguage (lowerText : String) : String :=
  if KAZAKH_LETTERS.any (fun letter => lowerText.data.contains letter) then "kk" else "ru"

/-- The `clarifying_question_kk/ru` pass of `_normalize_model_payload`:
a `None` (or missing) value is left alone; any other value is replaced by its
`_ensure_string`, and by `None` when that is empty. -/
def clarStep (n : Dict) (key : String) : Dict :=
  match pyGet n key with
  | .none => n
  | v =>
    let s := ensureString v ""
    if s = "" then dSet n key Val.none else dSet n key (Val.str s)

/-- `_normalize_model_payload(data, payload)` up to (excluding) the final
`_enforce_mandatory_slots` call.  `normalized = dict(data)` keeps every key of
the parsed object, including unknown extras. -/
def normalizePre (data : Dict) (p : AnalyzeRequest) : Dict :=
  let n := data
  let n := dSet n "need_clarification" (Val.bool (pyTruthy (pyGet n "need_clarification")))
  let n := dSet n "missing_slots" (Val.list ((ensureStrList (pyGet n "missing_slots")).map Val.str))
  let priority0 := ensureString (pyGet n "priority") "medium"
  let priority := if PRIORITY_VALUES.contains priority0 then priority0 else "medium"
  let n := dSet n "priority" (Val.str priority)
  let normalizedTuples := normalizeTuples (pyGet n "tuples") p
  let n := dSet n "tuples" (Val.list normalizedTuples)
  let aspectsFlat := normalizedTuples.flatMap tupleAspects
  let n := dSet n "aspects_count" (Val.dict (normalizeAspectsCount (pyGet n "aspects_count") aspectsFlat))
  let recPair := buildRecommendations priority
  let n := dSet n "recommendation_kk" (Val.str (ensureString (pyGet n "recommendation_kk") recPair.1))
  let n := dSet n "recommendation_ru" (Val.str (ensureString (pyGet n "recommendation_ru") recPair.2))
  let language0 := pyLower (ensureString (pyGet n "language") "")
  let language :=
    if language0 = "kk" || language0 = "ru" then language0
    else detectLanguage (pyLower p.description)
  let n := dSet n "language" (Val.str language)
  let n := dSet n "extracted_fields" (Val.dict (normalizeExtractedFields (pyGet n "extracted_fields")))
  let n := clarStep n "clarifying_question_kk"
  let n := clarStep n "clarifying_question_ru"
  n

/-- `_normalize_model_payload(data, payload)` (the Schema Normalizer including
its final Enforcer pass). -/
def normalizeModelPayload (data : Dict) (p : AnalyzeRequest) : Dict :=
  enforceMandatorySlots (normalizePre data p) p

/-! ## The pydantic response model (`AnalyzeResponse` and friends)

The structures carry plain `String`s; the enumeration constraints of the
pydantic `Literal` fields are enforced by `validateResponse`, which models
`AnalyzeResponse.model_validate` with `extra="forbid"`.  Pydantic v2 does not
coerce across primitive types in the directions this pipeline could exercise
(an `int` is not accepted for a `str` field, a `bool` is not accepted for an
`int` field), so the field parsers below accept exactly the matching `Val`
shape. -/

/-- `TupleObject` (`type` is a plain `str` field — not restricted by the
model itself). -/
structure TupleObject where
  type : String
  value : String

/-- `TuplePlace` (`kind` restricted to `stop/street/crossroad` by validation). -/
structure TuplePlace where
  kind : String
  value : String

/-- `ComplaintTuple`. -/
structure ComplaintTuple where
  objects : List TupleObject
  time : String
  place : Option TuplePlace
  aspects : List String

/-- `AspectsCount`: the seven counters (plain `int` fields — pydantic imposes
no sign constraint; non-negativity is a property of the pipeline, proved
below). -/
structure AspectsCount where
  punctuality : Int
  crowding : Int
  safety : Int
  staff : Int
  condition : Int
  payment : Int
  other : Int

/-- `ExtractedFields`. -/
structure ExtractedFields where
  route_numbers : List String
  bus_plates : List String
  places : List String

/-- `AnalyzeResponse`. -/
structure AnalyzeResponse where
  need_clarification : Bool
  missing_slots : List String
  priority : String
  tuples : List ComplaintTuple
  aspects_count : AspectsCount
  recommendation_kk : String
  recommendation_ru : String
  language : String
  extracted_fields : ExtractedFields
  clarifying_question_kk : Option String
  clarifying_question_ru : Option String

/-- The `AnalyzeResponse` field names, in declaration order. -/
def RESPONSE_FIELDS : List String :=
  ["need_clarification", "missing_slots", "priority", "tuples", "aspects_count",
   "recommendation_kk", "recommendation_ru", "language", "extracted_fields",
   "clarifying_question_kk", "clarifying_question_ru"]

/-- `model_dump` of a `TupleObject`. -/
def dumpObject (o : TupleObject) : Val :=
  Val.dict [("type", Val.str o.type), ("value", Val.str o.value)]

/-- `model_dump` of a `ComplaintTuple`. -/
def dumpTuple (t : ComplaintTuple) : Val :=
  Val.dict
    [("objects", Val.list (t.objects.map dumpObject)),
     ("time", Val.str t.time),
     ("place",
      match t.place with
      | Option.none => Val.none
      | some pl => Val.dict [("kind", Val.str pl.kind), ("value", Val.str pl.value)]),
     ("aspects", Val.list (t.aspects.map Val.str))]

/-- `model_dump` of an `AspectsCount`. -/
def dumpAspectsCount (ac : AspectsCount) : Dict :=
  [("punctuality", Val.int ac.punctuality), ("crowding", Val.int ac.crowding),
   ("safety", Val.int ac.safety), ("staff", Val.int ac.staff),
   ("condition", Val.int ac.condition), ("payment", Val.int ac.payment),
   ("other", Val.int ac.other)]

/-- `response.model_dump()`. -/
def dumpResponse (r : AnalyzeResponse) : Dict :=
  [("need_clarification", Val.bool r.need_clarification),
   ("missing_slots", Val.list (r.missing_slots.map Val.str)),
   ("priority", Val.str r.priority),
   ("tuples", Val.list (r.tuples.map dumpTuple)),
   ("aspects_count", Val.dict (dumpAspectsCount r.aspects_count)),
   ("recommendation_kk", Val.str r.recommendation_kk),
   ("recommendation_ru", Val.str r.recommendation_ru),
   ("language", Val.str r.language),
   ("extracted_fields",
    Val.dict [("route_numbers", Val.list (r.extracted_fields.route_numbers.map Val.str)),
              ("bus_plates", Val.list (r.extracted_fields.bus_plates.map Val.str)),
              ("places", Val.list (r.extracted_fields.places.map Val.str))]),
   ("clarifying_question_kk", optStrToVal r.clarifying_question_kk),
   ("clarifying_question_ru", optStrToVal r.clarifying_question_ru)]

/-- Validate a required `bool` field. -/
def parseBool : Option Val → Except String Bool
  | some (.bool b) => .ok b
  | _ => .error "need_clarification: boolean required"

/-- Validate a required `str` field. -/
def parseStr : Option Val → Except String String
  | some (.str s) => .ok s
  | _ => .error "string required"

/-- Validate a `Literal[...]` field. -/
def parseLiteral (allowed : List String) : Option Val → Except String String
  | some (.str s) => if allowed.contains s then .ok s else .error "literal mismatch"
  | _ => .error "string required"

/-- Validate a `List[str]` field. -/
def parseStrList : Option Val → Except String (List String)
  | some (.list xs) =>
    xs.mapM fun v =>
      match v with
      | Val.str s => Except.ok s
      | _ => Except.error "string required"
  | _ => .error "list required"

/-- Validate an `Optional[str]` field (defaulting to `None` when absent). -/
def parseOptStr : Option Val → Except String (Option String)
  | Option.none => .ok Option.none
  | some .none => .ok Option.none
  | some (.str s) => .ok (some s)
  | _ => .error "string or null required"

/-- Validate one `objects` entry. -/
def parseObject : Val → Except String TupleObject
  | .dict kvs => do
    let t ← parseStr (dGet kvs "type")
    let v ← parseStr (dGet kvs "value")
    .ok ⟨t, v⟩
  | _ => .error "object required"

/-- Validate an `Optional[TuplePlace]` field. -/
def parsePlace : Option Val → Except String (Option TuplePlace)
  | Option.none => .ok Option.none
  | some .none => .ok Option.none
  | some (.dict pkvs) => do
    let kind ← parseLiteral ["stop", "street", "crossroad"] (dGet pkvs "kind")
    let value ← parseStr (dGet pkvs "value")
    .ok (some ⟨kind, value⟩)
  | _ => .error "place: object or null required"

/-- Validate one aspect literal of a tuple's `aspects` list. -/
def parseAspect : Val → Except String String
  | Val.str s =>
    if ASPECT_NAMES.contains s then .ok s else .error "aspect literal"
  | _ => .error "aspect literal"

/-- Validate one tuple (extra keys inside a tuple dict are ignored:
`ComplaintTuple` does not forbid extras). -/
def parseTuple : Val → Except String ComplaintTuple
  | .dict kvs => do
    let objects ←
      match dGet kvs "objects" with
      | some (.list objs) => objs.mapM parseObject
      | _ => .error "objects: list required"
    let time ← parseStr (dGet kvs "time")
    let place ← parsePlace (dGet kvs "place")
    let aspects ←
      match dGet kvs "aspects" with
      | some (.list xs) => xs.mapM parseAspect
      | _ => .error "aspects: list required"
    .ok ⟨objects, time, place, aspects⟩
  | _ => .error "tuple: object required"

/-- Validate one counter of `aspects_count`: it must be an `int` (pydantic v2
rejects `bool` for an `int` field). -/
def parseCount : Option Val → Except String Int
  | some (Val.int n) => .ok n
  | _ => .error "integer required"

/-- Validate the seven counters of an `aspects_count` object. -/
def parseAspectsCountDict (kvs : Dict) : Except String AspectsCount :=
  match parseCount (dGet kvs "punctuality"), parseCount (dGet kvs "crowding"),
      parseCount (dGet kvs "safety"), parseCount (dGet kvs "staff"),
      parseCount (dGet kvs "condition"), parseCount (dGet kvs "payment"),
      parseCount (dGet kvs "other") with
  | .ok pu, .ok c, .ok s, .ok st, .ok co, .ok pay, .ok o =>
    .ok ⟨pu, c, s, st, co, pay, o⟩
  | _, _, _, _, _, _, _ => .error "aspects_count: integers required"

/-- Validate the `aspects_count` field (extra keys ignored; all seven
counters required). -/
def parseAspectsCount : Option Val → Except String AspectsCount
  | some (.dict kvs) => parseAspectsCountDict kvs
  | _ => .error "aspects_count: object required"

/-- Validate the `extracted_fields` field. -/
def parseExtractedFields : Option Val → Except String ExtractedFields
  | some (.dict kvs) => do
    let rn ← match dGet kvs "route_numbers" with
      | Option.none => Except.ok ([] : List String)   -- field default
      | ov => parseStrList ov
    let bp ← match dGet kvs "bus_plates" with
      | Option.none => Except.ok ([] : List String)
      | ov => parseStrList ov
    let pl ← match dGet kvs "places" with
      | Option.none => Except.ok ([] : List String)
      | ov => parseStrList ov
    .ok ⟨rn, bp, pl⟩
  | _ => .error "extracted_fields: object required"

/-- Validate the `tuples` field. -/
def parseTuplesField : Option Val → Except String (List ComplaintTuple)
  | some (.list ts) => ts.mapM parseTuple
  | _ => .error "tuples: list required"

/-- `AnalyzeResponse.model_validate(data)` with `extra="forbid"`: any key
outside the model, or any field error, raises `ValidationError`. -/
def validateResponse (d : Dict) : Except String AnalyzeResponse :=
  if d.any (fun kv => !RESPONSE_FIELDS.contains kv.1) then
    .error "extra_forbidden"
  else
    match parseBool (dGet d "need_clarification"),
        parseStrList (dGet d "missing_slots"),
        parseLiteral PRIORITY_VALUES (dGet d "priority"),
        parseTuplesField (dGet d "tuples"),
        parseAspectsCount (dGet d "aspects_count"),
        parseStr (dGet d "recommendation_kk"),
        parseStr (dGet d "recommendation_ru"),
        parseLiteral ["kk", "ru"] (dGet d "language"),
        parseExtractedFields (dGet d "extracted_fields"),
        parseOptStr (dGet d "clarifying_question_kk"),
        parseOptStr (dGet d "clarifying_question_ru") with
    | .ok nc, .ok ms, .ok pr, .ok tps, .ok ac, .ok rkk, .ok rru, .ok lang,
      .ok ef, .ok qkk, .ok qru =>
      .ok ⟨nc, ms, pr, tps, ac, rkk, rru, lang, ef, qkk, qru⟩
    | _, _, _, _, _, _, _, _, _, _, _ => .error "validation error"

/-! ## `_fallback_analysis` and its helpers -/

/-- Python `word in text` (substring containment). -/
def inStr (word text : String) : Bool :=
  text.data.tails.any fun t => word.data.isPrefixOf t

/-- `_detect_priority` keyword tiers. -/
def CRITICAL_KEYWORDS : List String := ["авар", "опас", "пожар", "дтп", "угроза", "қатты соқты"]

/-- Second tier. -/
def HIGH_KEYWORDS : List String := ["мас", "драка", "не работает тормоз", "не остановился", "қатер"]

/-- Third tier. -/
def MEDIUM_KEYWORDS : List String := ["опозд", "задерж", "жарық жоқ", "гряз", "қатты суық", "кондиц"]

/-- `_detect_priority(lower_text)`: first matching tier wins, default `low`. -/
def detectPriority (lowerText : String) : String :=
  if CRITICAL_KEYWORDS.any (fun w => inStr w lowerText) then "critical"
  else if HIGH_KEYWORDS.any (fun w => inStr w lowerText) then "high"
  else if MEDIUM_KEYWORDS.any (fun w => inStr w lowerText) then "medium"
  else "low"

/-- The tail of `_detect_aspects`, parameterised over the outcomes of the six
keyword checks: builds the selected-aspect list and the per-aspect counts,
with `other` firing exactly when no check did. -/
def detectAspectsCore (punctuality crowding safety staff condition payment : Bool) :
    List String × AspectsCount :=
  let selected :=
    (if punctuality then ["punctuality"] else [])
    ++ (if crowding then ["crowding"] else [])
    ++ (if safety then ["safety"] else [])
    ++ (if staff then ["staff"] else [])
    ++ (if condition then ["condition"] else [])
    ++ (if payment then ["payment"] else [])
  let toInt := fun (b : Bool) => if b then (1 : Int) else 0
  if selected.isEmpty then
    (["other"],
     ⟨toInt punctuality, toInt crowding, toInt safety, toInt staff,
      toInt condition, toInt payment, 1⟩)
  else
    (selected,
     ⟨toInt punctuality, toInt crowding, toInt safety, toInt staff,
      toInt condition, toInt payment, 0⟩)

/-- `_detect_aspects(lower_text)`: six independent keyword groups; `other`
fires exactly when none of them does. -/
def detectAspects (lowerText : String) : List String × AspectsCount :=
  let check := fun (words : List String) => words.any fun w => inStr w lowerText
  detectAspectsCore
    (check ["опозд", "опазд", "задерж", "кешікті"])
    (check ["переполн", "толп", "адам көп"])
    (check ["опас", "драка", "қорқынышты", "авар"])
    (check ["водител", "кондуктор", "жүргізуші", "хам"])
    (check ["гряз", "грязн", "сын", "жарамсыз", "жыртылған", "холод", "ыстық"])
    (check ["оплат", "валид", "касса", "төле"])

/-- A `\w` word character, for the alphabets the pipeline handles (ASCII
alphanumerics, underscore, the Cyrillic block). -/
def isWordChar (c : Char) : Bool :=
  c.isDigit || ('a' ≤ c && c ≤ 'z') || ('A' ≤ c && c ≤ 'Z') || c = '_'
  || (0x400 ≤ c.val && c.val ≤ 0x4FF)

/-- Split a text into its maximal word-character runs. -/
def wordRunsAux : List Char → List Char → List (List Char)
  | acc, [] => if acc.isEmpty then [] else [acc.reverse]
  | acc, c :: rest =>
    if isWordChar c then wordRunsAux (c :: acc) rest
    else if acc.isEmpty then wordRunsAux [] rest
    else acc.reverse :: wordRunsAux [] rest

/-- All maximal word-character runs of a text. -/
def wordRuns (l : List Char) : List (List Char) := wordRunsAux [] l

/-- `re.findall(r"\b\d{1,3}\b", lower_text)`: exactly the maximal word runs
that are all digits and 1–3 characters long (a digit adjacent to another word
character has no `\b` boundary). -/
def routeTokens (lowerText : String) : List String :=
  (wordRuns lowerText.data).filterMap fun run =>
    if run.all Char.isDigit && run.length ≤ 3 then some (String.mk run) else Option.none

/-- A character of the regex class `[a-zа-я]` (note: `ё` is outside `а-я`). -/
def isPlateLetter (c : Char) : Bool :=
  ('a' ≤ c && c ≤ 'z') || (0x430 ≤ c.val && c.val ≤ 0x44F)

/-- Try to match `letters{n} digits{3} letters{2}` at the head of the list. -/
def tryPlate (l : List Char) (n : Nat) : Option (List Char) :=
  let pre := l.take n
  let digs := (l.drop n).take 3
  let suf := (l.drop (n + 3)).take 2
  if pre.length = n && pre.all isPlateLetter && digs.length = 3
      && digs.all Char.isDigit && suf.length = 2 && suf.all isPlateLetter then
    some (pre ++ digs ++ suf)
  else Option.none

/-- The left-to-right, non-overlapping scan of
`re.findall(r"[a-zа-я]{1,2}\d{3}[a-zа-я]{2}", lower_text)`; the greedy
`{1,2}` tries two letters before one. -/
def plateScanFuel : Nat → List Char → List String
  | 0, _ => []
  | _, [] => []
  | fuel + 1, l =>
    match tryPlate l 2 with
    | some m => String.mk m :: plateScanFuel fuel (l.drop 7)
    | Option.none =>
      match tryPlate l 1 with
      | some m => String.mk m :: plateScanFuel fuel (l.drop 6)
      | Option.none => plateScanFuel fuel l.tail

/-- All plate-pattern matches in a text. -/
def plateMatches (lowerText : String) : List String :=
  plateScanFuel lowerText.data.length lowerText.data

/-- Code-point comparison of strings (Python `<` on `str`). -/
def strLtB : List Char → List Char → Bool
  | [], [] => false
  | [], _ :: _ => true
  | _ :: _, [] => false
  | a :: as, b :: bs =>
    if a.val < b.val then true else if b.val < a.val then false else strLtB as bs

/-- Python `a < b` on strings. -/
def pyStrLt (a b : String) : Bool := strLtB a.data b.data

/-- Insert into an ascending list. -/
def insertSorted (s : String) : List String → List String
  | [] => [s]
  | x :: xs => if pyStrLt x s then x :: insertSorted s xs else s :: x :: xs

/-- Drop duplicate strings, keeping first occurrences. -/
def dedupFirst (l : List String) : List String :=
  l.foldl (fun acc s => if acc.contains s then acc else acc ++ [s]) []

/-- `sorted(set(l))`: the distinct elements in ascending code-point order. -/
def sortedSet (l : List String) : List String :=
  (dedupFirst l).foldl (fun acc s => insertSorted s acc) []

/-- `_collect_routes(payload, lower_text)`. -/
def collectRoutes (p : AnalyzeRequest) (lowerText : String) : List String :=
  sortedSet (normalizeKnownFieldList (pyGet p.known_fields "route_numbers")
    ++ routeTokens lowerText)

/-- `_collect_bus_plates(payload, lower_text)`. -/
def collectBusPlates (p : AnalyzeRequest) (lowerText : String) : List String :=
  sortedSet ((normalizeKnownFieldList (pyGet p.known_fields "bus_plates")).map pyUpper
    ++ (plateMatches lowerText).map pyUpper)

/-- The fixed stop/station keyword literals of `_collect_places`. -/
def STOP_KEYWORDS : List String := ["остановк", "аялдама", "станция", "вокзал"]

/-- `_collect_places(payload, lower_text)`. -/
def collectPlaces (p : AnalyzeRequest) (lowerText : String) : List String :=
  sortedSet (normalizeKnownFieldList (pyGet p.known_fields "places")
    ++ normalizeKnownFieldList (pyGet p.known_fields "place")
    ++ normalizeKnownFieldList (pyGet p.known_fields "location")
    ++ STOP_KEYWORDS.filter (fun w => inStr w lowerText))

/-- The tail of the tuple-time expression of `_fallback_analysis`:
`payload.known_fields.get("reported_time") or "unspecified"` — note the raw
(uncoerced) known-facts value is used. -/
def fallbackTimeRest (p : AnalyzeRequest) : Val :=
  let v := pyGet p.known_fields "reported_time"
  if pyTruthy v then v else Val.str "unspecified"

/-- The tuple-time expression of `_fallback_analysis`:
`payload.submission_time_iso or payload.known_fields.get("reported_time") or
"unspecified"`. -/
def fallbackTupleTime (p : AnalyzeRequest) : Val :=
  match p.submission_time_iso with
  | some s => if s ≠ "" then Val.str s else fallbackTimeRest p
  | Option.none => fallbackTimeRest p

/-- The lower-cased, stripped complaint text driving every fallback helper
(`lower_text` in `_fallback_analysis`). -/
def fallbackLowerText (p : AnalyzeRequest) : String :=
  pyLower (pyStrip p.description)

/-- The tuple-construction step of `_fallback_analysis`: exactly one tuple is
emitted when route numbers are non-empty; building the `ComplaintTuple` raises
(`Except.error`) when the tuple-time expression produces a truthy non-string
(pydantic v2 rejects non-`str` input for a `str` field). -/
def fallbackTuples (p : AnalyzeRequest) : Except String (List ComplaintTuple) :=
  let routeNumbers := collectRoutes p (fallbackLowerText p)
  if routeNumbers.isEmpty then Except.ok ([] : List ComplaintTuple)
  else
    let tuplePlace : Option TuplePlace :=
      match normalizeKnownFieldList (pyGet p.known_fields "places") with
      | [] => Option.none
      | kp :: _ => some ⟨"stop", kp⟩
    match fallbackTupleTime p with
    | Val.str t =>
      Except.ok [⟨routeNumbers.map (fun route => ⟨"route", route⟩), t, tuplePlace,
        (detectAspects (fallbackLowerText p)).1⟩]
    | _ => Except.error "ComplaintTuple: time must be a string"

/-- The pre-Enforcer `AnalyzeResponse` assembled by `_fallback_analysis`. -/
def fallbackResponse (p : AnalyzeRequest) (tuples : List ComplaintTuple) :
    AnalyzeResponse :=
  let lowerText := fallbackLowerText p
  let priority := detectPriority lowerText
  let recPair := buildRecommendations priority
  ⟨false, [], priority, tuples, (detectAspects lowerText).2, recPair.1, recPair.2,
   detectLanguage lowerText,
   ⟨collectRoutes p lowerText, collectBusPlates p lowerText, collectPlaces p lowerText⟩,
   Option.none, Option.none⟩

/-- `_fallback_analysis(payload)`: build the pre-Enforcer record, run the same
Enforcer as the generator path over its dump, and validate the result. -/
def fallbackAnalysis (p : AnalyzeRequest) : Except String AnalyzeResponse :=
  match fallbackTuples p with
  | .error e => .error e
  | .ok tuples =>
    validateResponse (enforceMandatorySlots (dumpResponse (fallbackResponse p tuples)) p)

/-! ## `_call_model` (the Retry Controller)

Generation and JSON extraction are opaque at this level: an attempt is
represented by the result of `_extract_json` on the raw generator output
(`Except.error` for a `ParseError`, `Except.ok` for the parsed object). -/

/-- One validation attempt: normalize the parsed object and validate it. -/
def attemptFrom (parsed : Except String Dict) (p : AnalyzeRequest) :
    Except String AnalyzeResponse :=
  match parsed with
  | .error e => .error e
  | .ok data => validateResponse (normalizeModelPayload data p)

/-- `_call_model(payload)`: when generation is disabled go straight to the
fallback; otherwise try the first attempt, retry once, then fall back. -/
def callModel (llmDisabled : Bool) (parsed1 parsed2 : Except String Dict)
    (p : AnalyzeRequest) : Except String AnalyzeResponse :=
  if llmDisabled then fallbackAnalysis p
  else
    match attemptFrom parsed1 p with
    | .ok r => .ok r
    | .error _ =>
      match attemptFrom parsed2 p with
      | .ok r => .ok r
      | .error _ => fallbackAnalysis p

/-! ## Dictionary lemmas -/

theorem dGet_dSet_self (d : Dict) (k : String) (v : Val) :
    dGet (dSet d k v) k = some v := by
  induction d with
  | nil => simp [dSet, dGet]
  | cons kv rest ih =>
    obtain ⟨k0, v0⟩ := kv
    by_cases h : k0 = k
    · simp [dSet, h, dGet]
    · simp [dSet, h, dGet, ih]

theorem dGet_dSet_ne (d : Dict) {k k' : String} (v : Val) (h : k' ≠ k) :
    dGet (dSet d k v) k' = dGet d k' := by
  have hne : ¬ k = k' := fun hh => h hh.symm
  induction d with
  | nil => simp [dSet, dGet, hne]
  | cons kv rest ih =>
    obtain ⟨k0, v0⟩ := kv
    by_cases hk : k0 = k
    · subst hk
      simp [dSet, dGet, hne]
    · simp [dSet, hk, dGet, ih]

theorem dSet_eq_of_dGet {d : Dict} {k : String} {v : Val} (h : dGet d k = some v) :
    dSet d k v = d := by
  induction d with
  | nil => simp [dGet] at h
  | cons kv rest ih =>
    obtain ⟨k0, v0⟩ := kv
    by_cases hk : k0 = k
    · subst hk
      simp only [dGet, if_pos] at h
      cases h
      simp [dSet]
    · simp only [dGet, hk, if_false] at h
      simp [dSet, hk, ih h]

theorem pyGet_dSet_self (d : Dict) (k : String) (v : Val) :
    pyGet (dSet d k v) k = v := by
  simp [pyGet, dGet_dSet_self]

theorem pyGet_dSet_ne (d : Dict) {k k' : String} (v : Val) (h : k' ≠ k) :
    pyGet (dSet d k v) k' = pyGet d k' := by
  simp [pyGet, dGet_dSet_ne d v h]

theorem dGet_isSome_mem {d : Dict} {k : String} (h : (dGet d k).isSome = true) :
    ∃ kv, kv ∈ d ∧ kv.1 = k := by
  induction d with
  | nil => simp [dGet] at h
  | cons kv rest ih =>
    by_cases hk : kv.1 = k
    · exact ⟨kv, by simp, hk⟩
    · simp only [dGet, hk, if_neg, if_false] at h
      obtain ⟨kv', hmem, hkk⟩ := ih h
      exact ⟨kv', by simp [hmem], hkk⟩

/-! ## `str.strip` lemmas -/

theorem dropTrail_eq_rdropWhile (l : List Char) : dropTrail l = l.rdropWhile isPySpace := rfl

theorem length_dropWhile_le' (p : Char → Bool) (l : List Char) :
    (l.dropWhile p).length ≤ l.length := by
  induction l with
  | nil => simp
  | cons c t ih =>
    by_cases h : p c
    · simp only [List.dropWhile_cons, h, if_pos]
      exact Nat.le_trans ih (Nat.le_succ _)
    · simp [List.dropWhile_cons, h]

theorem dropWhile_fix_of_prefix (p : Char → Bool) {m n : List Char}
    (hm : m.dropWhile p = m) (hpre : n <+: m) : n.dropWhile p = n := by
  cases n with
  | nil => rfl
  | cons a t =>
    have ha : p a = false := by
      obtain ⟨rest, hrest⟩ := hpre
      subst hrest
      by_contra hpa
      simp only [Bool.not_eq_false] at hpa
      rw [List.cons_append, List.dropWhile_cons, if_pos hpa] at hm
      have := length_dropWhile_le' p (t ++ rest)
      rw [hm] at this
      simp at this
    simp [List.dropWhile_cons, ha]

theorem stripChars_idem (l : List Char) : stripChars (stripChars l) = stripChars l := by
  unfold stripChars
  rw [dropTrail_eq_rdropWhile, dropTrail_eq_rdropWhile]
  have h1 : (l.dropWhile isPySpace).dropWhile isPySpace = l.dropWhile isPySpace :=
    List.dropWhile_idempotent _ _
  have h2 : ((l.dropWhile isPySpace).rdropWhile isPySpace).dropWhile isPySpace
      = (l.dropWhile isPySpace).rdropWhile isPySpace :=
    dropWhile_fix_of_prefix _ h1 (List.rdropWhile_prefix _ _)
  rw [h2, List.rdropWhile_idempotent]

/-- A string is in stripped form. -/
def Stripped (s : String) : Prop := pyStrip s = s

theorem pyStrip_idem (s : String) : pyStrip (pyStrip s) = pyStrip s :=
  congrArg String.mk (stripChars_idem s.data)

theorem stripped_pyStrip (s : String) : Stripped (pyStrip s) := pyStrip_idem s

theorem stripped_empty : Stripped "" := rfl

/-! ## `_ensure_string` and list-coercion lemmas -/

theorem ensureString_stripped (v : Val) {fb : String} (h : Stripped fb) :
    Stripped (ensureString v fb) := by
  cases v <;> simp only [ensureString] <;>
    first
      | exact h
      | (split
         · exact stripped_pyStrip _
         · exact h)

theorem ensureString_ne_empty (v : Val) {fb : String} (h : fb ≠ "") :
    ensureString v fb ≠ "" := by
  cases v <;> simp only [ensureString] <;>
    first
      | exact h
      | (split
         · assumption
         · exact h)

theorem ensureString_str_self {s : String} (hs : Stripped s) (hne : s ≠ "") (fb : String) :
    ensureString (Val.str s) fb = s := by
  have hs' : pyStrip s = s := hs
  simp only [ensureString, hs', if_pos hne]

/-- A generic helper: a `filterMap` that maps every element to itself is the
identity. -/
theorem filterMap_eq_self_of {α : Type} {f : α → Option α} {l : List α}
    (h : ∀ x ∈ l, f x = some x) : l.filterMap f = l := by
  induction l with
  | nil => rfl
  | cons a t ih =>
    simp only [List.filterMap_cons, h a (by simp)]
    rw [ih (fun x hx => h x (by simp [hx]))]

theorem mem_ensureStrList {raw : Val} {x : String} (hx : x ∈ ensureStrList raw) :
    Stripped x ∧ x ≠ "" := by
  match raw with
  | .list xs =>
    simp only [ensureStrList, List.mem_filterMap] at hx
    obtain ⟨v, hmem, hv⟩ := hx
    match v with
    | .str s =>
      have hv' : (if pyStrip s ≠ "" then some (pyStrip s) else Option.none) = some x := hv
      by_cases hs : pyStrip s ≠ ""
      · rw [if_pos hs] at hv'
        cases hv'
        exact ⟨stripped_pyStrip s, hs⟩
      · rw [if_neg hs] at hv'
        cases hv'
    | .none => cases hv
    | .bool b => cases hv
    | .int n => cases hv
    | .float m e => cases hv
    | .list ys => cases hv
    | .dict kvs => cases hv
  | .none => cases hx
  | .bool b => cases hx
  | .int n => cases hx
  | .float m e => cases hx
  | .str s => cases hx
  | .dict kvs => cases hx

theorem ensureStrList_roundtrip {l : List String} (h : ∀ x ∈ l, Stripped x ∧ x ≠ "") :
    ensureStrList (Val.list (l.map Val.str)) = l := by
  simp only [ensureStrList]
  rw [List.filterMap_map]
  exact filterMap_eq_self_of fun x hx => by
    obtain ⟨h1, h2⟩ := h x hx
    show (if pyStrip x ≠ "" then some (pyStrip x) else Option.none) = some x
    rw [(h1 : pyStrip x = x), if_pos h2]

theorem mem_normalizeKnownFieldList {raw : Val} {x : String}
    (hx : x ∈ normalizeKnownFieldList raw) : Stripped x ∧ x ≠ "" := by
  match raw with
  | .str s =>
    simp only [normalizeKnownFieldList] at hx
    by_cases hs : pyStrip s ≠ ""
    · rw [if_pos hs, List.mem_singleton] at hx
      subst hx
      exact ⟨stripped_pyStrip s, hs⟩
    · rw [if_neg hs] at hx
      cases hx
  | .list xs =>
    simp only [normalizeKnownFieldList, List.mem_filterMap] at hx
    obtain ⟨v, hmem, hv⟩ := hx
    have hv' : (if ensureString v "" ≠ "" then some (ensureString v "") else Option.none)
        = some x := hv
    by_cases hc : ensureString v "" ≠ ""
    · rw [if_pos hc] at hv'
      cases hv'
      exact ⟨ensureString_stripped v stripped_empty, hc⟩
    · rw [if_neg hc] at hv'
      cases hv'
  | .dict kvs =>
    simp only [normalizeKnownFieldList, List.mem_filterMap] at hx
    obtain ⟨kv, hmem, hv⟩ := hx
    have hv' : (if ensureString kv.2 "" ≠ "" then some (ensureString kv.2 "") else Option.none)
        = some x := hv
    by_cases hc : ensureString kv.2 "" ≠ ""
    · rw [if_pos hc] at hv'
      cases hv'
      exact ⟨ensureString_stripped kv.2 stripped_empty, hc⟩
    · rw [if_neg hc] at hv'
      cases hv'
  | .none => cases hx
  | .bool b => cases hx
  | .int n => cases hx
  | .float m e => cases hx

theorem stripped_unspecified : Stripped "unspecified" := by
  show pyStrip "unspecified" = "unspecified"
  decide

theorem defaultTime_stripped (p : AnalyzeRequest) : Stripped (defaultTime p) := by
  show Stripped
    (if ensureString (optStrToVal p.submission_time_iso) "" ≠ "" then
      ensureString (optStrToVal p.submission_time_iso) ""
    else if ensureString (pyGet p.known_fields "reported_time") "" ≠ "" then
      ensureString (pyGet p.known_fields "reported_time") ""
    else if ensureString (pyGet p.known_fields "time") "" ≠ "" then
      ensureString (pyGet p.known_fields "time") ""
    else "unspecified")
  split
  · exact ensureString_stripped _ stripped_empty
  · split
    · exact ensureString_stripped _ stripped_empty
    · split
      · exact ensureString_stripped _ stripped_empty
      · exact stripped_unspecified

theorem defaultTime_ne_empty (p : AnalyzeRequest) : defaultTime p ≠ "" := by
  show (if ensureString (optStrToVal p.submission_time_iso) "" ≠ "" then
      ensureString (optStrToVal p.submission_time_iso) ""
    else if ensureString (pyGet p.known_fields "reported_time") "" ≠ "" then
      ensureString (pyGet p.known_fields "reported_time") ""
    else if ensureString (pyGet p.known_fields "time") "" ≠ "" then
      ensureString (pyGet p.known_fields "time") ""
    else "unspecified") ≠ ""
  split
  · assumption
  · split
    · assumption
    · split
      · assumption
      · decide

/-! ## Enforcer branch characterization -/

theorem pyGet_ite (c : Prop) [Decidable c] (a b : Dict) (k : String) :
    pyGet (if c then a else b) k = if c then pyGet a k else pyGet b k := by
  split <;> rfl

theorem dGet_ite (c : Prop) [Decidable c] (a b : Dict) (k : String) :
    dGet (if c then a else b) k = if c then dGet a k else dGet b k := by
  split <;> rfl

theorem mb_need (n : Dict) (m : List String) :
    pyGet (enforceMissingBranch n m) "need_clarification" = Val.bool true := by
  simp [enforceMissingBranch, pyGet_ite, pyGet_dSet_ne, pyGet_dSet_self]

theorem mb_missing (n : Dict) (m : List String) :
    pyGet (enforceMissingBranch n m) "missing_slots" = Val.list (m.map Val.str) := by
  simp [enforceMissingBranch, pyGet_ite, pyGet_dSet_ne, pyGet_dSet_self]

theorem mb_qru (n : Dict) (m : List String) :
    pyGet (enforceMissingBranch n m) "clarifying_question_ru" =
      (if ensureString (pyGet n "clarifying_question_ru") "" = "" then
        optStrToVal (clarificationRu (m.headD ""))
      else pyGet n "clarifying_question_ru") := by
  simp [enforceMissingBranch, pyGet_ite, pyGet_dSet_ne, pyGet_dSet_self]

theorem mb_qkk (n : Dict) (m : List String) :
    pyGet (enforceMissingBranch n m) "clarifying_question_kk" =
      (if ensureString (pyGet n "clarifying_question_kk") "" = "" then
        optStrToVal (clarificationKk (m.headD ""))
      else pyGet n "clarifying_question_kk") := by
  simp [enforceMissingBranch, pyGet_ite, pyGet_dSet_ne, pyGet_dSet_self]

theorem mb_dGet_other (n : Dict) (m : List String) {k : String}
    (h1 : k ≠ "need_clarification") (h2 : k ≠ "missing_slots")
    (h3 : k ≠ "clarifying_question_ru") (h4 : k ≠ "clarifying_question_kk") :
    dGet (enforceMissingBranch n m) k = dGet n k := by
  simp [enforceMissingBranch, dGet_ite, dGet_dSet_ne _ _ h1, dGet_dSet_ne _ _ h2,
    dGet_dSet_ne _ _ h3, dGet_dSet_ne _ _ h4]

theorem eb_missing (n : Dict) :
    pyGet (enforceEmptyBranch n) "missing_slots" = Val.list [] := by
  simp [enforceEmptyBranch, pyGet_ite, pyGet_dSet_ne, pyGet_dSet_self]

theorem eb_need (n : Dict) :
    pyGet (enforceEmptyBranch n) "need_clarification" =
      (if pyTruthy (pyGet n "need_clarification") then Val.bool false
       else pyGet n "need_clarification") := by
  simp [enforceEmptyBranch, pyGet_ite, pyGet_dSet_ne, pyGet_dSet_self, pyTruthy]

theorem eb_qru (n : Dict) :
    pyGet (enforceEmptyBranch n) "clarifying_question_ru" =
      (if pyTruthy (pyGet n "clarifying_question_ru") then
        pyGet n "clarifying_question_ru"
      else Val.none) := by
  simp [enforceEmptyBranch, pyGet_ite, pyGet_dSet_ne, pyGet_dSet_self, pyTruthy]
  split <;> simp_all

theorem eb_qkk (n : Dict) :
    pyGet (enforceEmptyBranch n) "clarifying_question_kk" =
      (if pyTruthy (pyGet n "clarifying_question_kk") then
        pyGet n "clarifying_question_kk"
      else Val.none) := by
  simp [enforceEmptyBranch, pyGet_ite, pyGet_dSet_ne, pyGet_dSet_self, pyTruthy]
  split <;> simp_all

theorem eb_dGet_other (n : Dict) {k : String}
    (h1 : k ≠ "need_clarification") (h2 : k ≠ "missing_slots")
    (h3 : k ≠ "clarifying_question_ru") (h4 : k ≠ "clarifying_question_kk") :
    dGet (enforceEmptyBranch n) k = dGet n k := by
  simp [enforceEmptyBranch, dGet_ite, dGet_dSet_ne _ _ h1, dGet_dSet_ne _ _ h2,
    dGet_dSet_ne _ _ h3, dGet_dSet_ne _ _ h4]

theorem enforce_dGet_other (n : Dict) (p : AnalyzeRequest) {k : String}
    (h1 : k ≠ "need_clarification") (h2 : k ≠ "missing_slots")
    (h3 : k ≠ "clarifying_question_ru") (h4 : k ≠ "clarifying_question_kk") :
    dGet (enforceMandatorySlots n p) k = dGet n k := by
  rw [show enforceMandatorySlots n p
      = if (enforceMissing n p).isEmpty then enforceEmptyBranch n
        else enforceMissingBranch n (enforceMissing n p) from rfl]
  split
  · exact eb_dGet_other n h1 h2 h3 h4
  · exact mb_dGet_other n _ h1 h2 h3 h4

theorem enforce_pyGet_other (n : Dict) (p : AnalyzeRequest) {k : String}
    (h1 : k ≠ "need_clarification") (h2 : k ≠ "missing_slots")
    (h3 : k ≠ "clarifying_question_ru") (h4 : k ≠ "clarifying_question_kk") :
    pyGet (enforceMandatorySlots n p) k = pyGet n k := by
  simp [pyGet, enforce_dGet_other n p h1 h2 h3 h4]

theorem enforce_eq_branches (n : Dict) (p : AnalyzeRequest) :
    enforceMandatorySlots n p
      = if (enforceMissing n p).isEmpty then enforceEmptyBranch n
        else enforceMissingBranch n (enforceMissing n p) := rfl

/-! ## Claim C1 -/

/-- Claim C1: for every normalized record (one whose `need_clarification` is a
boolean, as the Normalizer guarantees; `enforceInputOk` captures the shapes on
which the Python Enforcer is defined) and every request, the record returned
by the Mandatory Slot Enforcer has `missing_slots = []` if and only if
`need_clarification = false`. -/
theorem enforcer_missing_iff_need (n : Dict) (p : AnalyzeRequest) (b : Bool)
    (hok : enforceInputOk n = true)
    (hb : pyGet n "need_clarification" = Val.bool b) :
    (pyGet (enforceMandatorySlots n p) "missing_slots" = Val.list [] ↔
     pyGet (enforceMandatorySlots n p) "need_clarification" = Val.bool false) := by
  rw [enforce_eq_branches]
  split
  · rw [eb_missing, eb_need, hb]
    constructor
    · intro _
      cases b <;> simp [pyTruthy]
    · intro _
      rfl
  · next h =>
    rw [mb_missing, mb_need]
    constructor
    · intro hl
      exfalso
      injection hl with hl'
      rw [List.map_eq_nil_iff] at hl'
      exact h (by simp [hl'])
    · intro hn
      exfalso
      injection hn with hb'
      cases hb'

/-- Concrete instance discharging the hypotheses of `enforcer_missing_iff_need`. -/
def c1Record : Dict := [("need_clarification", Val.bool false)]

/-- The empty request used by several witnesses. -/
def emptyRequest : AnalyzeRequest := ⟨"", [], Option.none⟩

/-- Witness for claim C1 at a concrete record and request. -/
theorem enforcer_missing_iff_need_witness :
    enforceInputOk c1Record = true ∧
    pyGet c1Record "need_clarification" = Val.bool false ∧
    (pyGet (enforceMandatorySlots c1Record emptyRequest) "missing_slots" = Val.list [] ↔
     pyGet (enforceMandatorySlots c1Record emptyRequest) "need_clarification" = Val.bool false) :=
  ⟨rfl, rfl, enforcer_missing_iff_need c1Record emptyRequest false rfl rfl⟩

/-! ## Claim C3 -/

/-- Refinement, claim side: claim C3 calls a mandatory-fact identifier unmet
when its candidate set is empty. -/
def claimUnmet (routeUnmet placeUnmet timeUnmet : Bool) (slot : String) : Bool :=
  (slot = "route_numbers" && routeUnmet) || (slot = "places" && placeUnmet)
    || (slot = "reported_time" && timeUnmet)

/-- Refinement, claim side, transcribed from the words of claim C3: the final
`missing_slots` equals the generator-declared list with every met
mandatory-fact identifier removed and duplicates dropped, followed by each
unmet mandatory-fact identifier not already in that filtered list, appended in
the fixed order `route_numbers, places, reported_time`. -/
def specFinalMissingSlots (declared : List String)
    (routeUnmet placeUnmet timeUnmet : Bool) : List String :=
  let filtered := dedupFirst (declared.filter fun slot =>
    !(MANDATORY_SLOTS.contains slot && !claimUnmet routeUnmet placeUnmet timeUnmet slot))
  filtered ++ (MANDATORY_SLOTS.filter fun slot =>
    claimUnmet routeUnmet placeUnmet timeUnmet slot && !filtered.contains slot)

theorem mandatoryMissing_contains (n : Dict) (p : AnalyzeRequest) (slot : String) :
    (mandatoryMissing n p).contains slot
      = claimUnmet (decide (routeCandidates n p = [])) (decide (placeCandidates n p = []))
          (decide (timeCandidates n p = [])) slot := by
  unfold mandatoryMissing claimUnmet
  by_cases hr : routeCandidates n p = [] <;>
    by_cases hp : placeCandidates n p = [] <;>
      by_cases ht : timeCandidates n p = [] <;>
        simp [hr, hp, ht, List.contains_cons, Bool.or_comm, Bool.or_assoc, Bool.or_left_comm]

theorem filterExistAux_cons (mm acc : List String) (s : String) (rest : List String) :
    filterExistAux mm acc (s :: rest)
      = if MANDATORY_SLOTS.contains s && !mm.contains s then filterExistAux mm acc rest
        else if acc.contains s then filterExistAux mm acc rest
        else filterExistAux mm (acc ++ [s]) rest := rfl

theorem filterExistAux_eq (mm : List String) (ex acc : List String) :
    filterExistAux mm acc ex
      = (ex.filter fun slot =>
          !(MANDATORY_SLOTS.contains slot && !mm.contains slot)).foldl
            (fun acc slot => if acc.contains slot then acc else acc ++ [slot]) acc := by
  induction ex generalizing acc with
  | nil => rfl
  | cons s rest ih =>
    rw [filterExistAux_cons, List.filter_cons]
    by_cases hM : s ∈ MANDATORY_SLOTS <;> by_cases hm2 : s ∈ mm <;>
      by_cases hacc : s ∈ acc <;>
        simp [hM, hm2, hacc, ih, List.foldl_cons]

theorem filterExist_eq (ex mm : List String) :
    filterExist ex mm
      = dedupFirst (ex.filter fun slot =>
          !(MANDATORY_SLOTS.contains slot && !mm.contains slot)) := by
  unfold filterExist dedupFirst
  exact filterExistAux_eq mm ex []

theorem appendMandatory_eq (mm fe : List String) :
    appendMandatory mm fe
      = fe ++ (MANDATORY_SLOTS.filter fun slot =>
          mm.contains slot && !fe.contains slot) := by
  unfold appendMandatory MANDATORY_SLOTS
  by_cases h1 : "route_numbers" ∈ mm <;>
    by_cases h2 : "places" ∈ mm <;>
      by_cases h3 : "reported_time" ∈ mm <;>
        by_cases h4 : "route_numbers" ∈ fe <;>
          by_cases h5 : "places" ∈ fe <;>
            by_cases h6 : "reported_time" ∈ fe <;>
              simp [h1, h2, h3, h4, h5, h6, List.mem_append]

/-- Claim C3: the Enforcer's final `missing_slots` equals the
generator-declared list with met mandatory identifiers removed and duplicates
dropped, followed by the unmet mandatory identifiers not already present, in
the fixed order `route_numbers, places, reported_time` (a mandatory fact is
unmet exactly when its candidate pool is empty). -/
theorem enforcer_final_missing_spec (n : Dict) (p : AnalyzeRequest)
    (hok : enforceInputOk n = true) :
    enforceMissing n p
      = specFinalMissingSlots (existingMissing n)
          (decide (routeCandidates n p = [])) (decide (placeCandidates n p = []))
          (decide (timeCandidates n p = [])) := by
  have hfun : (fun slot => !(MANDATORY_SLOTS.contains slot
        && !(mandatoryMissing n p).contains slot))
      = (fun slot => !(MANDATORY_SLOTS.contains slot
        && !claimUnmet (decide (routeCandidates n p = []))
            (decide (placeCandidates n p = []))
            (decide (timeCandidates n p = [])) slot)) :=
    funext fun slot => by rw [mandatoryMissing_contains]
  unfold enforceMissing specFinalMissingSlots
  rw [filterExist_eq, appendMandatory_eq, hfun]
  congr 1
  refine List.filter_congr fun slot _ => ?_
  rw [mandatoryMissing_contains]

/-- A record for the C3 witness: a duplicated declared non-mandatory slot plus
a met `route_numbers` fact. -/
def c3Record : Dict :=
  [("missing_slots", Val.list [Val.str "extra", Val.str "extra", Val.str "route_numbers"]),
   ("extracted_fields", Val.dict [("route_numbers", Val.list [Val.str "7"])])]

/-- Witness for claim C3 at a concrete record and request. -/
theorem enforcer_final_missing_spec_witness :
    enforceInputOk c3Record = true ∧
    enforceMissing c3Record emptyRequest
      = specFinalMissingSlots (existingMissing c3Record)
          (decide (routeCandidates c3Record emptyRequest = []))
          (decide (placeCandidates c3Record emptyRequest = []))
          (decide (timeCandidates c3Record emptyRequest = [])) :=
  ⟨rfl, enforcer_final_missing_spec c3Record emptyRequest rfl⟩

/-! ## Claim C10 -/

theorem clarStep_dGet_ne (n : Dict) {key k : String} (h : k ≠ key) :
    dGet (clarStep n key) k = dGet n k := by
  unfold clarStep
  cases hpg : pyGet n key <;> simp [dGet_ite, dGet_dSet_ne _ _ h]

theorem normalizePre_dGet_other (data : Dict) (p : AnalyzeRequest) {k : String}
    (h : RESPONSE_FIELDS.contains k = false) :
    dGet (normalizePre data p) k = dGet data k := by
  have hx : k ∉ RESPONSE_FIELDS := by simpa using h
  have hne : ∀ f, f ∈ RESPONSE_FIELDS → k ≠ f := fun f hf he => hx (he ▸ hf)
  simp only [normalizePre]
  rw [clarStep_dGet_ne _ (hne _ (by simp [RESPONSE_FIELDS])),
    clarStep_dGet_ne _ (hne _ (by simp [RESPONSE_FIELDS])),
    dGet_dSet_ne _ _ (hne _ (by simp [RESPONSE_FIELDS])),
    dGet_dSet_ne _ _ (hne _ (by simp [RESPONSE_FIELDS])),
    dGet_dSet_ne _ _ (hne _ (by simp [RESPONSE_FIELDS])),
    dGet_dSet_ne _ _ (hne _ (by simp [RESPONSE_FIELDS])),
    dGet_dSet_ne _ _ (hne _ (by simp [RESPONSE_FIELDS])),
    dGet_dSet_ne _ _ (hne _ (by simp [RESPONSE_FIELDS])),
    dGet_dSet_ne _ _ (hne _ (by simp [RESPONSE_FIELDS])),
    dGet_dSet_ne _ _ (hne _ (by simp [RESPONSE_FIELDS])),
    dGet_dSet_ne _ _ (hne _ (by simp [RESPONSE_FIELDS]))]

theorem normalize_dGet_other (data : Dict) (p : AnalyzeRequest) {k : String}
    (h : RESPONSE_FIELDS.contains k = false) :
    dGet (normalizeModelPayload data p) k = dGet data k := by
  have hx : k ∉ RESPONSE_FIELDS := by simpa using h
  have hne : ∀ f, f ∈ RESPONSE_FIELDS → k ≠ f := fun f hf he => hx (he ▸ hf)
  unfold normalizeModelPayload
  rw [enforce_dGet_other _ _ (hne _ (by simp [RESPONSE_FIELDS]))
      (hne _ (by simp [RESPONSE_FIELDS])) (hne _ (by simp [RESPONSE_FIELDS]))
      (hne _ (by simp [RESPONSE_FIELDS])),
    normalizePre_dGet_other _ _ h]

theorem validate_extra_error {d : Dict} {k : String}
    (hk : (dGet d k).isSome = true) (h : RESPONSE_FIELDS.contains k = false) :
    validateResponse d = .error "extra_forbidden" := by
  obtain ⟨kv, hmem, hkk⟩ := dGet_isSome_mem hk
  unfold validateResponse
  rw [if_pos]
  simp only [List.any_eq_true]
  exact ⟨kv, hmem, by rw [hkk]; simp only [h, Bool.not_false]⟩

/-- Claim C10: an extra key of the parsed generator object survives the
Schema Normalizer, so validation of the normalized record fails (pydantic
forbids extra fields) and the Retry Controller treats the attempt as a
validation failure — it retries with the second attempt and otherwise falls
back, even if every known field normalized to a valid value. -/
theorem extra_key_rejected (d : Dict) (p : AnalyzeRequest) (k : String)
    (parsed2 : Except String Dict)
    (hk : (dGet d k).isSome = true)
    (hnf : RESPONSE_FIELDS.contains k = false) :
    dGet (normalizeModelPayload d p) k = dGet d k ∧
    validateResponse (normalizeModelPayload d p) = .error "extra_forbidden" ∧
    callModel false (.ok d) parsed2 p
      = (match attemptFrom parsed2 p with
         | .ok r => .ok r
         | .error _ => fallbackAnalysis p) := by
  have hpre : dGet (normalizeModelPayload d p) k = dGet d k :=
    normalize_dGet_other d p hnf
  have hval : validateResponse (normalizeModelPayload d p) = .error "extra_forbidden" :=
    validate_extra_error (by rw [hpre]; exact hk) hnf
  refine ⟨hpre, hval, ?_⟩
  have hatt : attemptFrom (Except.ok d) p = Except.error "extra_forbidden" := hval
  unfold callModel
  rw [if_neg (by simp), hatt]

/-- Witness for claim C10 at a concrete parsed object with the extra key
`foo`. -/
theorem extra_key_rejected_witness :
    (dGet [("foo", Val.int 1)] "foo").isSome = true ∧
    RESPONSE_FIELDS.contains "foo" = false ∧
    validateResponse (normalizeModelPayload [("foo", Val.int 1)] emptyRequest)
      = .error "extra_forbidden" :=
  ⟨rfl, by decide,
   (extra_key_rejected [("foo", Val.int 1)] emptyRequest "foo" (.error "") rfl
     (by decide)).2.1⟩

/-! ## Characterization of the Normalizer's pre-Enforcer pass -/

/-- The value `_normalize_model_payload` stores under `priority`. -/
def prePriority (data : Dict) : String :=
  let priority0 := ensureString (pyGet data "priority") "medium"
  if PRIORITY_VALUES.contains priority0 then priority0 else "medium"

/-- The value `_normalize_model_payload` stores under `language`. -/
def preLanguage (data : Dict) (p : AnalyzeRequest) : String :=
  let language0 := pyLower (ensureString (pyGet data "language") "")
  if language0 = "kk" || language0 = "ru" then language0
  else detectLanguage (pyLower p.description)

theorem clarStep_pyGet_ne (n : Dict) {key k : String} (h : k ≠ key) :
    pyGet (clarStep n key) k = pyGet n k := by
  simp [pyGet, clarStep_dGet_ne n h]

theorem clarStep_dGet_self (n : Dict) (key : String) :
    dGet (clarStep n key) key
      = (match pyGet n key with
         | Val.none => dGet n key
         | v => some (if ensureString v "" = "" then Val.none
                      else Val.str (ensureString v ""))) := by
  unfold clarStep
  cases hpg : pyGet n key <;> simp [hpg, dGet_ite, dGet_dSet_self, apply_ite]

theorem normalizePre_dGet_need (data : Dict) (p : AnalyzeRequest) :
    dGet (normalizePre data p) "need_clarification"
      = some (Val.bool (pyTruthy (pyGet data "need_clarification"))) := by
  simp only [normalizePre]
  simp [clarStep_dGet_ne, dGet_dSet_ne, dGet_dSet_self, pyGet_dSet_ne]

theorem normalizePre_dGet_missing (data : Dict) (p : AnalyzeRequest) :
    dGet (normalizePre data p) "missing_slots"
      = some (Val.list ((ensureStrList (pyGet data "missing_slots")).map Val.str)) := by
  simp only [normalizePre]
  simp [clarStep_dGet_ne, dGet_dSet_ne, dGet_dSet_self, pyGet_dSet_ne]

theorem normalizePre_dGet_priority (data : Dict) (p : AnalyzeRequest) :
    dGet (normalizePre data p) "priority" = some (Val.str (prePriority data)) := by
  simp only [normalizePre]
  simp [clarStep_dGet_ne, dGet_dSet_ne, dGet_dSet_self, pyGet_dSet_ne, prePriority]

theorem normalizePre_dGet_tuples (data : Dict) (p : AnalyzeRequest) :
    dGet (normalizePre data p) "tuples"
      = some (Val.list (normalizeTuples (pyGet data "tuples") p)) := by
  simp only [normalizePre]
  simp [clarStep_dGet_ne, dGet_dSet_ne, dGet_dSet_self, pyGet_dSet_ne]

theorem normalizePre_dGet_ac (data : Dict) (p : AnalyzeRequest) :
    dGet (normalizePre data p) "aspects_count"
      = some (Val.dict (normalizeAspectsCount (pyGet data "aspects_count")
          ((normalizeTuples (pyGet data "tuples") p).flatMap tupleAspects))) := by
  simp only [normalizePre]
  simp [clarStep_dGet_ne, dGet_dSet_ne, dGet_dSet_self, pyGet_dSet_ne]

theorem normalizePre_dGet_reckk (data : Dict) (p : AnalyzeRequest) :
    dGet (normalizePre data p) "recommendation_kk"
      = some (Val.str (ensureString (pyGet data "recommendation_kk")
          (buildRecommendations (prePriority data)).1)) := by
  simp only [normalizePre]
  simp [clarStep_dGet_ne, dGet_dSet_ne, dGet_dSet_self, pyGet_dSet_ne, prePriority]

theorem normalizePre_dGet_recru (data : Dict) (p : AnalyzeRequest) :
    dGet (normalizePre data p) "recommendation_ru"
      = some (Val.str (ensureString (pyGet data "recommendation_ru")
          (buildRecommendations (prePriority data)).2)) := by
  simp only [normalizePre]
  simp [clarStep_dGet_ne, dGet_dSet_ne, dGet_dSet_self, pyGet_dSet_ne, prePriority]

theorem normalizePre_dGet_language (data : Dict) (p : AnalyzeRequest) :
    dGet (normalizePre data p) "language" = some (Val.str (preLanguage data p)) := by
  simp only [normalizePre]
  simp [clarStep_dGet_ne, dGet_dSet_ne, dGet_dSet_self, pyGet_dSet_ne, preLanguage]

theorem normalizePre_dGet_extracted (data : Dict) (p : AnalyzeRequest) :
    dGet (normalizePre data p) "extracted_fields"
      = some (Val.dict (normalizeExtractedFields (pyGet data "extracted_fields"))) := by
  simp only [normalizePre]
  simp [clarStep_dGet_ne, dGet_dSet_ne, dGet_dSet_self, pyGet_dSet_ne]

theorem normalizePre_dGet_qkk (data : Dict) (p : AnalyzeRequest) :
    dGet (normalizePre data p) "clarifying_question_kk"
      = (match pyGet data "clarifying_question_kk" with
         | Val.none => dGet data "clarifying_question_kk"
         | v => some (if ensureString v "" = "" then Val.none
                      else Val.str (ensureString v ""))) := by
  simp only [normalizePre]
  rw [clarStep_dGet_ne _ (by simp), clarStep_dGet_self]
  simp [pyGet_dSet_ne, dGet_dSet_ne]

theorem normalizePre_dGet_qru (data : Dict) (p : AnalyzeRequest) :
    dGet (normalizePre data p) "clarifying_question_ru"
      = (match pyGet data "clarifying_question_ru" with
         | Val.none => dGet data "clarifying_question_ru"
         | v => some (if ensureString v "" = "" then Val.none
                      else Val.str (ensureString v ""))) := by
  simp only [normalizePre]
  rw [clarStep_dGet_self]
  simp [clarStep_pyGet_ne, clarStep_dGet_ne, pyGet_dSet_ne, dGet_dSet_ne]

/-! ## Claim C4 (corrected) -/

/-- A tuple dict meeting all three mandatory facts, used by the C4 inputs. -/
def c4Tuple : Val :=
  Val.dict
    [("objects", Val.list [Val.dict [("type", Val.str "route"), ("value", Val.str "12")]]),
     ("time", Val.str "2024-01-01"),
     ("place", Val.dict [("kind", Val.str "stop"), ("value", Val.str "Center")]),
     ("aspects", Val.list [Val.str "other"])]

/-- A record meeting all mandatory facts that carries a non-empty
generator-provided `clarifying_question_ru`. -/
def c4Record : Dict :=
  [("tuples", Val.list [c4Tuple]), ("clarifying_question_ru", Val.str "Вопрос?")]

/-- Counterexample to claim C4 as stated: with every mandatory fact met and a
non-empty generator-provided `clarifying_question_ru`, the Enforcer keeps the
question instead of clearing it to null. -/
theorem enforcer_all_met_counterexample :
    enforceMissing c4Record emptyRequest = [] ∧
    pyGet (enforceMandatorySlots c4Record emptyRequest) "clarifying_question_ru"
      = Val.str "Вопрос?" ∧
    Val.str "Вопрос?" ≠ Val.none :=
  ⟨rfl, rfl, fun h => Val.noConfusion h⟩

/-- Claim C4 as amended: when the Enforcer's final missing list is empty it
sets `need_clarification = false` and `missing_slots = []`, and sets each
clarifying-question field to null only when that field is empty/absent — a
non-empty generator-provided question is preserved. -/
theorem enforcer_all_met (n : Dict) (p : AnalyzeRequest) (b : Bool)
    (hok : enforceInputOk n = true)
    (hb : pyGet n "need_clarification" = Val.bool b)
    (hm : enforceMissing n p = []) :
    pyGet (enforceMandatorySlots n p) "need_clarification" = Val.bool false ∧
    pyGet (enforceMandatorySlots n p) "missing_slots" = Val.list [] ∧
    pyGet (enforceMandatorySlots n p) "clarifying_question_ru" =
      (if pyTruthy (pyGet n "clarifying_question_ru") then
        pyGet n "clarifying_question_ru"
      else Val.none) ∧
    pyGet (enforceMandatorySlots n p) "clarifying_question_kk" =
      (if pyTruthy (pyGet n "clarifying_question_kk") then
        pyGet n "clarifying_question_kk"
      else Val.none) := by
  rw [enforce_eq_branches, hm]
  simp only [List.isEmpty_nil, if_true]
  refine ⟨?_, eb_missing n, eb_qru n, eb_qkk n⟩
  rw [eb_need, hb]
  cases b <;> simp [pyTruthy]

/-- A record with all mandatory facts met, `need_clarification = true` and no
clarifying questions, instantiating `enforcer_all_met`. -/
def c4wRecord : Dict :=
  [("need_clarification", Val.bool true), ("tuples", Val.list [c4Tuple])]

/-- Witness for the amended claim C4 at a concrete record and request. -/
theorem enforcer_all_met_witness :
    enforceInputOk c4wRecord = true ∧
    enforceMissing c4wRecord emptyRequest = [] ∧
    pyGet (enforceMandatorySlots c4wRecord emptyRequest) "need_clarification"
      = Val.bool false ∧
    pyGet (enforceMandatorySlots c4wRecord emptyRequest) "clarifying_question_ru"
      = Val.none :=
  ⟨rfl, rfl, (enforcer_all_met c4wRecord emptyRequest true rfl rfl rfl).1, by
    rw [(enforcer_all_met c4wRecord emptyRequest true rfl rfl rfl).2.2.1]
    rfl⟩

/-! ## Claim C9 (corrected) -/

/-- A record with nothing met whose `clarifying_question_kk` is already
non-empty while `clarifying_question_ru` is not set. -/
def c9Record : Dict := [("clarifying_question_kk", Val.str "x")]

/-- Counterexample to claim C9 as stated: the final missing list is non-empty
and the two clarifying-question fields are not both empty (`kk` is "x"), yet
the Enforcer still fills the empty `ru` field from the template — the
fields are filled independently, not only when both are empty. -/
theorem enforcer_unmet_counterexample :
    pyGet c9Record "clarifying_question_kk" = Val.str "x" ∧
    pyTruthy (pyGet c9Record "clarifying_question_kk") = true ∧
    pyGet c9Record "clarifying_question_ru" = Val.none ∧
    enforceMissing c9Record emptyRequest ≠ [] ∧
    pyGet (enforceMandatorySlots c9Record emptyRequest) "clarifying_question_ru"
      = Val.str ("Укажите номер маршрута или госномер автобуса. Если его не было, "
          ++ "отправьте краткое уточнение с этим номером.") ∧
    pyGet (enforceMandatorySlots c9Record emptyRequest) "clarifying_question_kk"
      = Val.str "x" :=
  ⟨rfl, rfl, rfl, by decide, rfl, rfl⟩

/-- Claim C9 as amended: when the Enforcer's final missing list is non-empty
it sets `need_clarification = true` and `missing_slots` to that list, and
fills each clarifying-question field independently: a field that is still
empty is set from the static bilingual template keyed by the first entry of
the final list (null when that entry has no template); a non-empty field is
left unchanged. -/
theorem enforcer_unmet (n : Dict) (p : AnalyzeRequest)
    (hok : enforceInputOk n = true)
    (hm : enforceMissing n p ≠ []) :
    pyGet (enforceMandatorySlots n p) "need_clarification" = Val.bool true ∧
    pyGet (enforceMandatorySlots n p) "missing_slots"
      = Val.list ((enforceMissing n p).map Val.str) ∧
    pyGet (enforceMandatorySlots n p) "clarifying_question_ru" =
      (if ensureString (pyGet n "clarifying_question_ru") "" = "" then
        optStrToVal (clarificationRu ((enforceMissing n p).headD ""))
      else pyGet n "clarifying_question_ru") ∧
    pyGet (enforceMandatorySlots n p) "clarifying_question_kk" =
      (if ensureString (pyGet n "clarifying_question_kk") "" = "" then
        optStrToVal (clarificationKk ((enforceMissing n p).headD ""))
      else pyGet n "clarifying_question_kk") := by
  rw [enforce_eq_branches, if_neg (by simpa using hm)]
  exact ⟨mb_need _ _, mb_missing _ _, mb_qru _ _, mb_qkk _ _⟩

/-- Witness for the amended claim C9 at a concrete record and request: both
question fields are empty, so both are filled from the `route_numbers`
template. -/
theorem enforcer_unmet_witness :
    enforceInputOk ([] : Dict) = true ∧
    enforceMissing ([] : Dict) emptyRequest ≠ [] ∧
    pyGet (enforceMandatorySlots ([] : Dict) emptyRequest) "need_clarification"
      = Val.bool true ∧
    pyGet (enforceMandatorySlots ([] : Dict) emptyRequest) "clarifying_question_ru"
      = optStrToVal (clarificationRu "route_numbers") :=
  ⟨rfl, by decide, (enforcer_unmet [] emptyRequest rfl (by decide)).1, by
    rw [(enforcer_unmet [] emptyRequest rfl (by decide)).2.2.1]
    rfl⟩

/-! ## Validation inversion and aspects-count lemmas -/

theorem validate_ok_parts {d : Dict} {r : AnalyzeResponse}
    (h : validateResponse d = .ok r) :
    parseTuplesField (dGet d "tuples") = .ok r.tuples ∧
    parseAspectsCount (dGet d "aspects_count") = .ok r.aspects_count := by
  unfold validateResponse at h
  split at h
  · exact absurd h (by simp)
  · split at h
    all_goals first
      | (exfalso; exact Except.noConfusion h)
      | (injection h with h
         subst h
         constructor <;> assumption)

theorem parseCount_ok {ov : Option Val} {k : Int} (h : parseCount ov = .ok k) :
    ov = some (Val.int k) := by
  unfold parseCount at h
  split at h
  · injection h with h
    subst h
    rfl
  · exact absurd h (by simp)

theorem parseAC_ok_fields {kvs : Dict} {ac : AspectsCount}
    (h : parseAspectsCountDict kvs = .ok ac) :
    dGet kvs "punctuality" = some (Val.int ac.punctuality) ∧
    dGet kvs "crowding" = some (Val.int ac.crowding) ∧
    dGet kvs "safety" = some (Val.int ac.safety) ∧
    dGet kvs "staff" = some (Val.int ac.staff) ∧
    dGet kvs "condition" = some (Val.int ac.condition) ∧
    dGet kvs "payment" = some (Val.int ac.payment) ∧
    dGet kvs "other" = some (Val.int ac.other) := by
  unfold parseAspectsCountDict at h
  split at h
  all_goals first
    | (exfalso; exact Except.noConfusion h)
    | (injection h with h
       subst h
       refine ⟨parseCount_ok ?_, parseCount_ok ?_, parseCount_ok ?_, parseCount_ok ?_,
         parseCount_ok ?_, parseCount_ok ?_, parseCount_ok ?_⟩ <;> assumption)

theorem acEntry_ge0 (raw : Val) (name : String) : pyIntGe0 (acEntry raw name) = true := by
  unfold acEntry
  match raw with
  | .dict kvs =>
    match hg : dGet kvs name with
    | Option.none => simp [hg, pyIntGe0]
    | some v =>
      simp only [hg]
      split
      · next hv => exact Bool.and_elim_right hv
      · simp [pyIntGe0]
  | .none | .bool _ | .int _ | .float _ _ | .str _ | .list _ => simp [pyIntGe0]

theorem pyAsInt_nonneg_of_ge0 {v : Val} (h : pyIntGe0 v = true) : 0 ≤ pyAsInt v := by
  match v with
  | .int n => simpa [pyIntGe0] using h
  | .bool b => cases b <;> simp [pyAsInt]
  | .none | .float _ _ | .str _ | .list _ | .dict _ => simp [pyAsInt]

theorem acFinal_int_nonneg {raw : Val} {as : List String} {name : String} {k : Int}
    (h : acFinal raw as name = Val.int k) : 0 ≤ k := by
  unfold acFinal at h
  split at h
  · injection h with h
    subst h
    have h1 : 0 ≤ pyAsInt (acEntry raw name) :=
      pyAsInt_nonneg_of_ge0 (acEntry_ge0 raw name)
    positivity
  · have := acEntry_ge0 raw name
    rw [h] at this
    simpa [pyIntGe0] using this

/-! ## Aspects and tuple roundtrip lemmas -/

theorem normalizeAspects_ne_nil (raw : Val) : normalizeAspects raw ≠ [] := by
  simp only [normalizeAspects]
  split
  · simp
  · next h => simpa [List.isEmpty_iff] using h

theorem mem_ite_singleton {a s : String} {c : Prop} [Decidable c]
    (h : a ∈ (if c then [s] else [])) : a = s := by
  split at h
  · simpa using h
  · cases h

theorem normalizeAspects_subset (raw : Val) :
    ∀ a ∈ normalizeAspects raw, a ∈ ASPECT_NAMES := by
  intro a ha
  simp only [normalizeAspects] at ha
  split at ha
  · rw [List.mem_singleton] at ha
    subst ha
    decide
  · match raw with
    | .list xs =>
      simp only [List.mem_filterMap] at ha
      obtain ⟨v, hmem, hv⟩ := ha
      match v with
      | Val.str s =>
        have hv' : (if ASPECT_NAMES.contains s then some s else Option.none) = some a := hv
        by_cases hc : ASPECT_NAMES.contains s = true
        · rw [if_pos hc] at hv'
          injection hv' with hv'
          subst hv'
          simpa using hc
        · rw [if_neg hc] at hv'
          cases hv'
      | Val.none | Val.bool _ | Val.int _ | Val.float _ _ | Val.list _ | Val.dict _ =>
        cases hv
    | .none | .bool _ | .int _ | .float _ _ | .str _ | .dict _ => cases ha

theorem tupleAspects_build (objs : List Val) (tv : String) (pl : Val) (as : List String) :
    tupleAspects (Val.dict
      [("objects", Val.list objs), ("time", Val.str tv), ("place", pl),
       ("aspects", Val.list (as.map Val.str))]) = as := by
  have hred : tupleAspects (Val.dict
      [("objects", Val.list objs), ("time", Val.str tv), ("place", pl),
       ("aspects", Val.list (as.map Val.str))])
      = List.filterMap (fun a => match a with | Val.str s => some s | _ => Option.none)
          (as.map Val.str) := rfl
  rw [hred, List.filterMap_map]
  exact filterMap_eq_self_of fun x hx => rfl

theorem normTupleItem_aspects {p : AnalyzeRequest} {iv ov : Val}
    (h : normTupleItem p iv = some ov) :
    tupleAspects ov ≠ [] ∧ ∀ a ∈ tupleAspects ov, a ∈ ASPECT_NAMES := by
  match iv with
  | .dict kvs =>
    simp only [normTupleItem] at h
    injection h with h
    subst h
    rw [tupleAspects_build]
    exact ⟨normalizeAspects_ne_nil _, normalizeAspects_subset _⟩
  | .none | .bool _ | .int _ | .float _ _ | .str _ | .list _ => cases h

theorem parseObject_dump (o : TupleObject) : parseObject (dumpObject o) = .ok o := rfl

theorem mapM_parseObject_dump (l : List TupleObject) :
    (l.map dumpObject).mapM parseObject = .ok l := by
  induction l with
  | nil => rfl
  | cons a t ih =>
    rw [List.map_cons, List.mapM_cons, parseObject_dump, ih]
    rfl

theorem mapM_parseAspect_dump {as : List String} (h : ∀ a ∈ as, a ∈ ASPECT_NAMES) :
    (as.map Val.str).mapM parseAspect = .ok as := by
  induction as with
  | nil => rfl
  | cons a t ih =>
    have ha : ASPECT_NAMES.contains a = true := by
      have := h a (by simp)
      simpa using this
    rw [List.map_cons, List.mapM_cons,
      show parseAspect (Val.str a) = .ok a from by
        show (if ASPECT_NAMES.contains a = true then Except.ok a
          else Except.error "aspect literal") = Except.ok a
        rw [if_pos ha],
      ih (fun x hx => h x (by simp [hx]))]
    rfl

theorem parseTuple_dump_core (objs : List TupleObject) (tv : String) (plv : Val)
    (pl : Option TuplePlace) (as : List String)
    (hplace : parsePlace (some plv) = .ok pl)
    (hasp : ∀ a ∈ as, a ∈ ASPECT_NAMES) :
    parseTuple (Val.dict
      [("objects", Val.list (objs.map dumpObject)), ("time", Val.str tv),
       ("place", plv), ("aspects", Val.list (as.map Val.str))])
      = .ok (⟨objs, tv, pl, as⟩ : ComplaintTuple) := by
  have hred : parseTuple (Val.dict
      [("objects", Val.list (objs.map dumpObject)), ("time", Val.str tv),
       ("place", plv), ("aspects", Val.list (as.map Val.str))])
      = (do
        let objects ← (objs.map dumpObject).mapM parseObject
        let time ← parseStr (some (Val.str tv))
        let place ← parsePlace (some plv)
        let aspects ← (as.map Val.str).mapM parseAspect
        Except.ok (⟨objects, time, place, aspects⟩ : ComplaintTuple)) := rfl
  rw [hred, mapM_parseObject_dump, mapM_parseAspect_dump hasp, hplace]
  rfl

theorem parseTuple_dump_ok {t : ComplaintTuple}
    (hpl : t.place = Option.none ∨ ∃ pl, t.place = some pl ∧ pl.kind = "stop")
    (hasp : ∀ a ∈ t.aspects, a ∈ ASPECT_NAMES) :
    parseTuple (dumpTuple t) = .ok t := by
  rcases hpl with hnone | ⟨pla, hsome, hkind⟩
  · rw [show dumpTuple t = Val.dict
        [("objects", Val.list (t.objects.map dumpObject)), ("time", Val.str t.time),
         ("place", Val.none), ("aspects", Val.list (t.aspects.map Val.str))]
      from by simp [dumpTuple, hnone]]
    rw [parseTuple_dump_core t.objects t.time Val.none Option.none t.aspects rfl hasp]
    rw [show (⟨t.objects, t.time, Option.none, t.aspects⟩ : ComplaintTuple) = t
      from by rw [← hnone]]
  · rw [show dumpTuple t = Val.dict
        [("objects", Val.list (t.objects.map dumpObject)), ("time", Val.str t.time),
         ("place", Val.dict [("kind", Val.str pla.kind), ("value", Val.str pla.value)]),
         ("aspects", Val.list (t.aspects.map Val.str))]
      from by simp [dumpTuple, hsome]]
    have hplace : parsePlace (some (Val.dict
        [("kind", Val.str pla.kind), ("value", Val.str pla.value)])) = .ok (some pla) := by
      simp only [parsePlace]
      rw [show dGet [("kind", Val.str pla.kind), ("value", Val.str pla.value)] "kind"
          = some (Val.str pla.kind) from by simp [dGet]]
      rw [show dGet [("kind", Val.str pla.kind), ("value", Val.str pla.value)] "value"
          = some (Val.str pla.value) from by simp [dGet]]
      rw [show parseLiteral ["stop", "street", "crossroad"] (some (Val.str pla.kind))
          = .ok pla.kind from by simp [parseLiteral, hkind]]
      rfl
    rw [parseTuple_dump_core t.objects t.time _ (some pla) t.aspects hplace hasp]
    rw [show (⟨t.objects, t.time, some pla, t.aspects⟩ : ComplaintTuple) = t
      from by rw [← hsome]]

theorem parseTuplesField_dump_ok {ts : List ComplaintTuple}
    (h : ∀ t ∈ ts,
      (t.place = Option.none ∨ ∃ pl, t.place = some pl ∧ pl.kind = "stop") ∧
      ∀ a ∈ t.aspects, a ∈ ASPECT_NAMES) :
    parseTuplesField (some (Val.list (ts.map dumpTuple))) = .ok ts := by
  simp only [parseTuplesField]
  induction ts with
  | nil => rfl
  | cons t rest ih =>
    rw [List.map_cons, List.mapM_cons,
      parseTuple_dump_ok (h t (by simp)).1 (h t (by simp)).2,
      ih (fun x hx => h x (by simp [hx]))]
    rfl

theorem parseAC_dump (ac : AspectsCount) :
    parseAspectsCount (some (Val.dict (dumpAspectsCount ac))) = .ok ac := rfl

/-! ## Claim C6 -/

/-- All seven counters are non-negative. -/
def acNonNeg (ac : AspectsCount) : Prop :=
  0 ≤ ac.punctuality ∧ 0 ≤ ac.crowding ∧ 0 ≤ ac.safety ∧ 0 ≤ ac.staff ∧
  0 ≤ ac.condition ∧ 0 ≤ ac.payment ∧ 0 ≤ ac.other

/-- The aggregate count is identically zero. -/
def acAllZero (ac : AspectsCount) : Prop :=
  ac.punctuality = 0 ∧ ac.crowding = 0 ∧ ac.safety = 0 ∧ ac.staff = 0 ∧
  ac.condition = 0 ∧ ac.payment = 0 ∧ ac.other = 0

/-- Project a counter by its aspect name. -/
def acField (ac : AspectsCount) : String → Int
  | "punctuality" => ac.punctuality
  | "crowding" => ac.crowding
  | "safety" => ac.safety
  | "staff" => ac.staff
  | "condition" => ac.condition
  | "payment" => ac.payment
  | _ => ac.other

theorem parseAC_fields_named {kvs : Dict} {ac : AspectsCount}
    (h : parseAspectsCountDict kvs = .ok ac) :
    ∀ name ∈ ASPECT_NAMES, dGet kvs name = some (Val.int (acField ac name)) := by
  obtain ⟨f1, f2, f3, f4, f5, f6, f7⟩ := parseAC_ok_fields h
  intro name hname
  fin_cases hname <;> simpa [acField]

theorem acAllZero_field {ac : AspectsCount} (hz : acAllZero ac) :
    ∀ name ∈ ASPECT_NAMES, acField ac name = 0 := by
  intro name hname
  fin_cases hname <;>
    simp [acField, hz.1, hz.2.1, hz.2.2.1, hz.2.2.2.1, hz.2.2.2.2.1, hz.2.2.2.2.2.1,
      hz.2.2.2.2.2.2]

theorem acNonNeg_of_fields {ac : AspectsCount}
    (h : ∀ name ∈ ASPECT_NAMES, 0 ≤ acField ac name) : acNonNeg ac := by
  refine ⟨?_, ?_, ?_, ?_, ?_, ?_, ?_⟩ <;>
    first
      | exact h "punctuality" (by simp [ASPECT_NAMES])
      | exact h "crowding" (by simp [ASPECT_NAMES])
      | exact h "safety" (by simp [ASPECT_NAMES])
      | exact h "staff" (by simp [ASPECT_NAMES])
      | exact h "condition" (by simp [ASPECT_NAMES])
      | exact h "payment" (by simp [ASPECT_NAMES])
      | exact h "other" (by simp [ASPECT_NAMES])

theorem normalizeAC_dGet (raw : Val) (fl : List String) {name : String}
    (hname : name ∈ ASPECT_NAMES) :
    dGet (normalizeAspectsCount raw fl) name = some (acFinal raw fl name) := by
  fin_cases hname <;> simp [normalizeAspectsCount, ASPECT_NAMES, dGet]

/-- The record-level aspects-count invariant of the pipeline outputs. -/
def aspectsInvariant (r : AnalyzeResponse) : Prop :=
  (dumpAspectsCount r.aspects_count).map Prod.fst = ASPECT_NAMES ∧
  acNonNeg r.aspects_count ∧
  ((∃ t ∈ r.tuples, t.aspects ≠ []) → ¬ acAllZero r.aspects_count)

theorem ite_int_eq_zero {b : Bool} (h : (if b = true then (1 : Int) else 0) = 0) :
    b = false := by
  cases b <;> simp_all

theorem ite_int_nonneg (c : Prop) [Decidable c] : (0 : Int) ≤ if c then 1 else 0 := by
  split <;> norm_num

theorem detectAspectsCore_nonneg (b1 b2 b3 b4 b5 b6 : Bool) :
    acNonNeg (detectAspectsCore b1 b2 b3 b4 b5 b6).2 := by
  unfold acNonNeg
  cases b1 <;> cases b2 <;> cases b3 <;> cases b4 <;> cases b5 <;> cases b6 <;> decide

theorem detectAspectsCore_not_allZero (b1 b2 b3 b4 b5 b6 : Bool) :
    ¬ acAllZero (detectAspectsCore b1 b2 b3 b4 b5 b6).2 := by
  unfold acAllZero
  cases b1 <;> cases b2 <;> cases b3 <;> cases b4 <;> cases b5 <;> cases b6 <;> decide

theorem detectAspectsCore_subset (b1 b2 b3 b4 b5 b6 : Bool) :
    ∀ a ∈ (detectAspectsCore b1 b2 b3 b4 b5 b6).1, a ∈ ASPECT_NAMES := by
  cases b1 <;> cases b2 <;> cases b3 <;> cases b4 <;> cases b5 <;> cases b6 <;> decide

theorem detectAspects_nonneg (lt : String) : acNonNeg (detectAspects lt).2 :=
  detectAspectsCore_nonneg _ _ _ _ _ _

theorem detectAspects_not_allZero (lt : String) : ¬ acAllZero (detectAspects lt).2 :=
  detectAspectsCore_not_allZero _ _ _ _ _ _

theorem detectAspects_subset (lt : String) :
    ∀ a ∈ (detectAspects lt).1, a ∈ ASPECT_NAMES :=
  detectAspectsCore_subset _ _ _ _ _ _

/-- Generator path: every record that passes normalization and validation
satisfies the aspects-count invariant. -/
theorem aspects_invariant_generator (data : Dict) (p : AnalyzeRequest)
    (r : AnalyzeResponse)
    (h : validateResponse (normalizeModelPayload data p) = .ok r) :
    aspectsInvariant r := by
  obtain ⟨htup, hac⟩ := validate_ok_parts h
  have hd_ac : dGet (normalizeModelPayload data p) "aspects_count"
      = some (Val.dict (normalizeAspectsCount (pyGet data "aspects_count")
          ((normalizeTuples (pyGet data "tuples") p).flatMap tupleAspects))) := by
    unfold normalizeModelPayload
    rw [enforce_dGet_other _ _ (by simp) (by simp) (by simp) (by simp),
      normalizePre_dGet_ac]
  have hd_t : dGet (normalizeModelPayload data p) "tuples"
      = some (Val.list (normalizeTuples (pyGet data "tuples") p)) := by
    unfold normalizeModelPayload
    rw [enforce_dGet_other _ _ (by simp) (by simp) (by simp) (by simp),
      normalizePre_dGet_tuples]
  rw [hd_ac] at hac
  rw [hd_t] at htup
  have hacd : parseAspectsCountDict (normalizeAspectsCount (pyGet data "aspects_count")
      ((normalizeTuples (pyGet data "tuples") p).flatMap tupleAspects))
      = .ok r.aspects_count := hac
  have hfields := parseAC_fields_named hacd
  have hfinal : ∀ name ∈ ASPECT_NAMES,
      acFinal (pyGet data "aspects_count")
        ((normalizeTuples (pyGet data "tuples") p).flatMap tupleAspects) name
      = Val.int (acField r.aspects_count name) := by
    intro name hname
    have h1 := hfields name hname
    rw [normalizeAC_dGet _ _ hname] at h1
    injection h1
  refine ⟨rfl, ?_, ?_⟩
  · exact acNonNeg_of_fields fun name hname =>
      acFinal_int_nonneg (hfinal name hname)
  · rintro ⟨t, ht, -⟩ hz
    have hmap : (normalizeTuples (pyGet data "tuples") p).mapM parseTuple
        = .ok r.tuples := htup
    have hts_ne : normalizeTuples (pyGet data "tuples") p ≠ [] := by
      intro h0
      rw [h0] at hmap
      simp only [List.mapM_nil] at hmap
      have hnil : ([] : List ComplaintTuple) = r.tuples := by
        injection hmap
      rw [← hnil] at ht
      cases ht
    obtain ⟨it, rest, hcons⟩ := List.exists_cons_of_ne_nil hts_ne
    have hit_mem : it ∈ normalizeTuples (pyGet data "tuples") p := by
      rw [hcons]; simp
    have hit_src : ∃ iv, normTupleItem p iv = some it := by
      revert hit_mem
      unfold normalizeTuples
      split
      · intro hmem
        rw [List.mem_filterMap] at hmem
        obtain ⟨iv, _, hiv⟩ := hmem
        exact ⟨iv, hiv⟩
      · intro hmem
        cases hmem
    obtain ⟨iv, hiv⟩ := hit_src
    obtain ⟨hit_ne, hit_sub⟩ := normTupleItem_aspects hiv
    obtain ⟨a, arest, ha⟩ := List.exists_cons_of_ne_nil hit_ne
    have ha_mem_it : a ∈ tupleAspects it := by rw [ha]; simp
    have ha_fl : a ∈ (normalizeTuples (pyGet data "tuples") p).flatMap tupleAspects := by
      rw [List.mem_flatMap]
      exact ⟨it, hit_mem, ha_mem_it⟩
    have ha_names : a ∈ ASPECT_NAMES := hit_sub a ha_mem_it
    have hfa := hfinal a ha_names
    rw [acAllZero_field hz a ha_names] at hfa
    by_cases hrec : acRecompute (pyGet data "aspects_count")
        ((normalizeTuples (pyGet data "tuples") p).flatMap tupleAspects) = true
    · rw [show acFinal (pyGet data "aspects_count")
            ((normalizeTuples (pyGet data "tuples") p).flatMap tupleAspects) a
          = Val.int (pyAsInt (acEntry (pyGet data "aspects_count") a)
            + (((normalizeTuples (pyGet data "tuples") p).flatMap tupleAspects).count a : Int))
          from by unfold acFinal; rw [if_pos hrec]] at hfa
      injection hfa with hfa
      have hcount : 0 < ((normalizeTuples (pyGet data "tuples") p).flatMap tupleAspects).count a :=
        List.count_pos_iff.mpr ha_fl
      have hnn : 0 ≤ pyAsInt (acEntry (pyGet data "aspects_count") a) :=
        pyAsInt_nonneg_of_ge0 (acEntry_ge0 _ _)
      omega
    · have hfl_ne : ((normalizeTuples (pyGet data "tuples") p).flatMap tupleAspects) ≠ [] :=
        fun h0 => by rw [h0] at ha_fl; cases ha_fl
      have hany : (ASPECT_NAMES.any fun n =>
          pyTruthy (acEntry (pyGet data "aspects_count") n)) = true := by
        by_contra hno
        apply hrec
        unfold acRecompute
        simp only [Bool.and_eq_true, Bool.not_eq_true']
        exact ⟨by simpa using hno, by simpa [List.isEmpty_iff] using hfl_ne⟩
      rw [List.any_eq_true] at hany
      obtain ⟨n, hn_mem, hn_tr⟩ := hany
      have hfn := hfinal n hn_mem
      rw [show acFinal (pyGet data "aspects_count")
            ((normalizeTuples (pyGet data "tuples") p).flatMap tupleAspects) n
          = acEntry (pyGet data "aspects_count") n
          from by unfold acFinal; rw [if_neg hrec]] at hfn
      rw [acAllZero_field hz n hn_mem] at hfn
      rw [hfn] at hn_tr
      simp [pyTruthy] at hn_tr

/-! ## The fallback path of the aspects-count invariant -/

theorem dump_dGet_tuples (r : AnalyzeResponse) :
    dGet (dumpResponse r) "tuples" = some (Val.list (r.tuples.map dumpTuple)) := by
  simp [dumpResponse, dGet]

theorem dump_dGet_ac (r : AnalyzeResponse) :
    dGet (dumpResponse r) "aspects_count"
      = some (Val.dict (dumpAspectsCount r.aspects_count)) := by
  simp [dumpResponse, dGet]

/-- Every tuple the fallback emits has an absent place or a `stop`-kind place,
and its aspects are drawn from the aspect vocabulary. -/
theorem fallbackTuples_shape {p : AnalyzeRequest} {ts : List ComplaintTuple}
    (h : fallbackTuples p = .ok ts) :
    ∀ t ∈ ts,
      (t.place = Option.none ∨ ∃ pl, t.place = some pl ∧ pl.kind = "stop") ∧
      ∀ a ∈ t.aspects, a ∈ ASPECT_NAMES := by
  simp only [fallbackTuples] at h
  split at h
  · injection h with h
    subst h
    intro t ht
    cases ht
  · split at h
    · rcases hnk : normalizeKnownFieldList (pyGet p.known_fields "places")
        with _ | ⟨kp, ks⟩
      · rw [hnk] at h
        injection h with h
        subst h
        intro t ht
        rw [List.mem_singleton] at ht
        subst ht
        exact ⟨Or.inl rfl, detectAspects_subset _⟩
      · rw [hnk] at h
        injection h with h
        subst h
        intro t ht
        rw [List.mem_singleton] at ht
        subst ht
        exact ⟨Or.inr ⟨⟨"stop", kp⟩, rfl, rfl⟩, detectAspects_subset _⟩
    · exact Except.noConfusion h

/-- Every tuple the fallback emits carries the fallback time chain as its
`time`. -/
theorem fallbackTuples_time {p : AnalyzeRequest} {ts : List ComplaintTuple}
    (h : fallbackTuples p = .ok ts) {t : ComplaintTuple} (ht : t ∈ ts) :
    Val.str t.time = fallbackTupleTime p := by
  simp only [fallbackTuples] at h
  split at h
  · injection h with h
    subst h
    cases ht
  · split at h
    · next t0 heq =>
      injection h with h
      subst h
      rw [List.mem_singleton] at ht
      subst ht
      exact heq.symm
    · exact Except.noConfusion h

/-- A successful fallback run reproduces exactly the fallback tuples and the
detected aspect counts. -/
theorem fallback_ok_parts {p : AnalyzeRequest} {r : AnalyzeResponse}
    (h : fallbackAnalysis p = .ok r) :
    fallbackTuples p = .ok r.tuples ∧
    r.aspects_count = (detectAspects (fallbackLowerText p)).2 := by
  unfold fallbackAnalysis at h
  split at h
  · exact Except.noConfusion h
  · next ts heq =>
    obtain ⟨htup, hac⟩ := validate_ok_parts h
    rw [enforce_dGet_other _ _ (by simp) (by simp) (by simp) (by simp),
      dump_dGet_ac, parseAC_dump] at hac
    rw [enforce_dGet_other _ _ (by simp) (by simp) (by simp) (by simp),
      dump_dGet_tuples] at htup
    have htup' : parseTuplesField (some (Val.list (ts.map dumpTuple)))
        = .ok r.tuples := htup
    rw [parseTuplesField_dump_ok (fallbackTuples_shape heq)] at htup'
    injection htup' with hts
    injection hac with hac
    constructor
    · rw [← hts]
      exact heq
    · exact hac.symm

/-- Claim C6: on every pipeline output — a record produced by normalizing and
validating a parsed generator object, or a fallback record — `aspects_count`
carries exactly the seven enumerated aspect keys, each mapped to a
non-negative integer, and it is not identically zero whenever some output
tuple declares a non-empty aspect list. -/
theorem aspects_count_invariant (p : AnalyzeRequest) (r : AnalyzeResponse)
    (h : (∃ data, validateResponse (normalizeModelPayload data p) = .ok r) ∨
         fallbackAnalysis p = .ok r) :
    aspectsInvariant r := by
  rcases h with ⟨data, hg⟩ | hf
  · exact aspects_invariant_generator data p r hg
  · obtain ⟨-, hac⟩ := fallback_ok_parts hf
    refine ⟨rfl, ?_, fun _ => ?_⟩
    · rw [hac]
      exact detectAspects_nonneg _
    · rw [hac]
      exact detectAspects_not_allZero _

/-- The record the generator path produces from the empty parsed object and
the empty request. -/
def c6Record : AnalyzeResponse :=
  ⟨true, ["route_numbers", "places", "reported_time"], "medium", [],
   ⟨0, 0, 0, 0, 0, 0, 0⟩,
   "Оқиғаға талдау жүргізіп, уақытылы қызмет көрсету үшін қосымша бақылау орнатыңыз.",
   "Следует усилить контроль за расписанием и условиями поездки на данном маршруте.",
   "ru", ⟨[], [], []⟩,
   some "Маршрут нөмірін немесе автобустың мемлекеттік нөмірін көрсетіңіз. Егер ол мәтінде болмаған болса, шағымды осы дерекпен толықтырыңыз.",
   some "Укажите номер маршрута или госномер автобуса. Если его не было, отправьте краткое уточнение с этим номером."⟩

/-- Witness for claim C6 at the empty parsed object and the empty request. -/
theorem aspects_count_invariant_witness :
    ((∃ data, validateResponse (normalizeModelPayload data emptyRequest) = .ok c6Record) ∨
      fallbackAnalysis emptyRequest = .ok c6Record) ∧
    aspectsInvariant c6Record :=
  ⟨Or.inl ⟨[], rfl⟩,
   aspects_count_invariant emptyRequest c6Record (Or.inl ⟨[], rfl⟩)⟩

/-! ## Claim C7 -/

/-- The fallback tuple-time chain as the code computes it, spelled out: the
caller's submission timestamp if non-empty, else the raw known-facts
`reported_time` if truthy, else the literal `"unspecified"`. Unlike
`_default_time`, the known-facts `time` key is never consulted, and the
known-facts value is used raw, without string coercion. -/
def fallbackTimeChainAmended (p : AnalyzeRequest) : Val :=
  match p.submission_time_iso with
  | some s =>
    if s ≠ "" then Val.str s
    else if pyTruthy (pyGet p.known_fields "reported_time")
      then pyGet p.known_fields "reported_time" else Val.str "unspecified"
  | Option.none =>
    if pyTruthy (pyGet p.known_fields "reported_time")
      then pyGet p.known_fields "reported_time" else Val.str "unspecified"

theorem fallbackTimeChain_eq (p : AnalyzeRequest) :
    fallbackTimeChainAmended p = fallbackTupleTime p := by
  unfold fallbackTimeChainAmended fallbackTupleTime fallbackTimeRest
  rfl

/-- The request exhibiting the divergence of claim C7: a known-facts `time`
entry that `_default_time` would use. -/
def p7c : AnalyzeRequest := ⟨"маршрут 45", [("time", Val.str "08:00")], Option.none⟩

/-- Counterexample to claim C7 as stated: with a known-facts `time` entry and
no submission timestamp or `reported_time`, `_default_time` (the §4.2 chain)
yields `"08:00"`, but the fallback tuple's time is the sentinel
`"unspecified"` — the fallback chain skips the known-facts `time` key. -/
theorem fallback_tuple_time_counterexample :
    ∃ r, fallbackAnalysis p7c = .ok r ∧
      r.tuples.map (fun t => t.time) = ["unspecified"] ∧
      defaultTime p7c = "08:00" :=
  ⟨_, rfl, rfl, rfl⟩

/-- Claim C7 (amended): every tuple the fallback emits carries as its time the
chain submission-timestamp → raw known-facts `reported_time` → literal
`"unspecified"`; the known-facts `time` key consulted by `_default_time` is
skipped. -/
theorem fallback_tuple_time (p : AnalyzeRequest) (r : AnalyzeResponse)
    (t : ComplaintTuple) (h : fallbackAnalysis p = .ok r) (ht : t ∈ r.tuples) :
    Val.str t.time = fallbackTimeChainAmended p := by
  obtain ⟨htup, -⟩ := fallback_ok_parts h
  rw [fallbackTimeChain_eq]
  exact fallbackTuples_time htup ht

/-- The request of the claim C7 witness. -/
def p7 : AnalyzeRequest :=
  ⟨"маршрут 45", [("reported_time", Val.str "07:30")], Option.none⟩

/-- The single tuple the fallback emits for `p7`. -/
def t7 : ComplaintTuple := ⟨[⟨"route", "45"⟩], "07:30", Option.none, ["other"]⟩

/-- The record the fallback produces for `p7`. -/
def r7 : AnalyzeResponse :=
  ⟨true, ["places"], "low", [t7], ⟨0, 0, 0, 0, 0, 0, 1⟩,
   "Өтініш журналға жазылды, қайталанса — маршрут операторы қарастырады.",
   "Обращение зафиксировано, при повторении ситуация будет передана оператору маршрута.",
   "ru", ⟨["45"], [], []⟩,
   some "Оқиға болған орынды (аялдама, көше атауы) нақты жазыңыз және шағымыңызға осы мәліметті қосып қайта жіберіңіз.",
   some "Укажите точное место происшествия (остановка, улица). Добавьте это уточнение к жалобе и отправьте снова."⟩

/-- Witness for the amended claim C7 at a concrete request whose known facts
carry a `reported_time`: the emitted tuple's time is `"07:30"`. -/
theorem fallback_tuple_time_witness :
    fallbackAnalysis p7 = .ok r7 ∧ t7 ∈ r7.tuples ∧
    Val.str t7.time = fallbackTimeChainAmended p7 :=
  ⟨rfl, List.mem_singleton.mpr rfl,
   fallback_tuple_time p7 r7 t7 rfl (List.mem_singleton.mpr rfl)⟩

/-! ## Claim C2 -/

/-- A request whose known-facts `reported_time` is an integer: the fallback
passes it raw into the `ComplaintTuple` constructor. -/
def c2Request : AnalyzeRequest :=
  ⟨"Автобус 12", [("reported_time", Val.int 123)], Option.none⟩

/-- Claim C2 fails on the code: the fallback analyzer is not total. For a
request with route numbers in the text, no submission timestamp and a
known-facts `reported_time` holding a (truthy) non-string — here the integer
`123` — the expression `payload.submission_time_iso or
payload.known_fields.get("reported_time") or "unspecified"` passes the raw
value as `ComplaintTuple.time`, and pydantic v2 rejects a non-`str` value for
a `str` field, so `_fallback_analysis` raises a `ValidationError`. -/
theorem fallback_raises_on_int_time :
    fallbackAnalysis c2Request = .error "ComplaintTuple: time must be a string" := rfl

/-! ## Claim C8 -/

/-- The Scenario A request. -/
def p8 : AnalyzeRequest :=
  ⟨"Автобус №12 опоздал на 20 минут", [], some "2025-01-01T08:00:00+05:00"⟩

/-- Counterexample to claim C8 as stated: in the Scenario A text the duration
token `"20"` of `"20 минут"` also matches `\b\d\x7b1,3\x7d\b`, so
`extracted_fields.route_numbers` is `["12", "20"]`, not `["12"]`. -/
theorem scenario_a_counterexample :
    ∃ r, callModel true (.error "") (.error "") p8 = .ok r ∧
      r.extracted_fields.route_numbers = ["12", "20"] ∧
      r.extracted_fields.route_numbers ≠ ["12"] :=
  ⟨_, rfl, rfl, by decide⟩

/-- Claim C8 (amended): for the Scenario A request with generation disabled,
the pipeline output has priority `"medium"`, detected aspects
`["punctuality"]`, `extracted_fields.route_numbers = ["12", "20"]`, exactly
one tuple whose objects are the two route objects `12` and `20` and whose
time is the submission timestamp, `missing_slots = ["places"]`, and
`need_clarification = true`. -/
theorem scenario_a_amended :
    ∃ r, callModel true (.error "") (.error "") p8 = .ok r ∧
      r.priority = "medium" ∧
      (detectAspects (fallbackLowerText p8)).1 = ["punctuality"] ∧
      r.extracted_fields.route_numbers = ["12", "20"] ∧
      r.tuples.map (fun t => t.objects) = [[⟨"route", "12"⟩, ⟨"route", "20"⟩]] ∧
      r.tuples.map (fun t => t.time) = ["2025-01-01T08:00:00+05:00"] ∧
      r.missing_slots = ["places"] ∧
      r.need_clarification = true :=
  ⟨_, rfl, rfl, rfl, rfl, rfl, rfl, rfl, rfl⟩

/-! ## Claim C5: value-level idempotence of the normalization helpers -/

theorem stripped_of_eq {s : String} (h : pyStrip s = s) : Stripped s := h

theorem dGet_cons_self (k : String) (v : Val) (rest : Dict) :
    dGet ((k, v) :: rest) k = some v := by
  show (if k = k then some v else dGet rest k) = some v
  rw [if_pos rfl]

theorem dGet_cons_ne {key k : String} (v : Val) (rest : Dict) (h : k ≠ key) :
    dGet ((k, v) :: rest) key = dGet rest key := by
  show (if k = key then some v else dGet rest key) = dGet rest key
  rw [if_neg h]

theorem pyGet_cons_self (k : String) (v : Val) (rest : Dict) :
    pyGet ((k, v) :: rest) k = v := by
  simp [pyGet, dGet_cons_self]

theorem pyGet_cons_ne {key k : String} (v : Val) (rest : Dict) (h : k ≠ key) :
    pyGet ((k, v) :: rest) key = pyGet rest key := by
  simp [pyGet, dGet_cons_ne v rest h]

theorem priority_vals_ok : ∀ s ∈ PRIORITY_VALUES, Stripped s ∧ s ≠ "" := by
  have : ∀ s ∈ PRIORITY_VALUES, pyStrip s = s ∧ s ≠ "" := by decide
  exact this

theorem mandatory_slots_ok : ∀ s ∈ MANDATORY_SLOTS, Stripped s ∧ s ≠ "" := by
  have : ∀ s ∈ MANDATORY_SLOTS, pyStrip s = s ∧ s ≠ "" := by decide
  exact this

theorem tuple_types_ok : ∀ s ∈ TUPLE_OBJECT_TYPES, Stripped s ∧ s ≠ "" := by
  have : ∀ s ∈ TUPLE_OBJECT_TYPES, pyStrip s = s ∧ s ≠ "" := by decide
  exact this

theorem clarificationKk_ok {slot s : String} (h : clarificationKk slot = some s) :
    Stripped s ∧ s ≠ "" := by
  unfold clarificationKk at h
  split at h
  · injection h with h
    subst h
    exact ⟨stripped_of_eq (by decide), by decide⟩
  · split at h
    · injection h with h
      subst h
      exact ⟨stripped_of_eq (by decide), by decide⟩
    · split at h
      · injection h with h
        subst h
        exact ⟨stripped_of_eq (by decide), by decide⟩
      · cases h

theorem clarificationRu_ok {slot s : String} (h : clarificationRu slot = some s) :
    Stripped s ∧ s ≠ "" := by
  unfold clarificationRu at h
  split at h
  · injection h with h
    subst h
    exact ⟨stripped_of_eq (by decide), by decide⟩
  · split at h
    · injection h with h
      subst h
      exact ⟨stripped_of_eq (by decide), by decide⟩
    · split at h
      · injection h with h
        subst h
        exact ⟨stripped_of_eq (by decide), by decide⟩
      · cases h

theorem buildRecommendations_ok {pr : String} (hpr : pr ∈ PRIORITY_VALUES) :
    (Stripped (buildRecommendations pr).1 ∧ (buildRecommendations pr).1 ≠ "") ∧
    (Stripped (buildRecommendations pr).2 ∧ (buildRecommendations pr).2 ≠ "") := by
  fin_cases hpr <;>
    exact ⟨⟨stripped_of_eq (by decide), by decide⟩, stripped_of_eq (by decide), by decide⟩

theorem prePriority_mem (data : Dict) : prePriority data ∈ PRIORITY_VALUES := by
  simp only [prePriority]
  split
  · next h => simpa using h
  · decide

theorem preLanguage_cases (data : Dict) (p : AnalyzeRequest) :
    preLanguage data p = "kk" ∨ preLanguage data p = "ru" := by
  simp only [preLanguage]
  split
  · next h =>
    rcases Bool.or_eq_true_iff.mp h with h1 | h1
    · exact Or.inl (by simpa using h1)
    · exact Or.inr (by simpa using h1)
  · unfold detectLanguage
    split
    · exact Or.inl rfl
    · exact Or.inr rfl

theorem normObject_idem {obj o : Val} (h : normObject obj = some o) :
    normObject o = some o := by
  match obj with
  | .dict okvs =>
    simp only [normObject] at h
    split at h
    · cases h
    · next hty =>
      split at h
      · cases h
      · next hval =>
        injection h with h
        subst h
        have hmem : ensureString (pyGet okvs "type") "route" ∈ TUPLE_OBJECT_TYPES := by
          have := hty
          simp only [Bool.not_eq_true', Bool.not_eq_false] at this
          simpa using this
        obtain ⟨hts, htne⟩ := tuple_types_ok _ hmem
        have hvs : Stripped (ensureString (pyGet okvs "value") "") :=
          ensureString_stripped _ stripped_empty
        have hcont : TUPLE_OBJECT_TYPES.contains (ensureString (pyGet okvs "type") "route")
            = true := by simpa using hmem
        simp only [normObject, pyGet_cons_self]
        rw [pyGet_cons_ne _ _ (show ("type" : String) ≠ "value" by decide), pyGet_cons_self,
          ensureString_str_self hts htne, ensureString_str_self hvs hval]
        simp [hcont, hval, hmem]
  | .none => cases h
  | .bool b => cases h
  | .int n => cases h
  | .float m e => cases h
  | .str s => cases h
  | .list xs => cases h

theorem normPlace_valid {k v : String} (p : AnalyzeRequest)
    (hk : k = "stop" ∨ k = "street" ∨ k = "crossroad")
    (hks : Stripped k) (hkne : k ≠ "") (hv : v ≠ "") (hvs : Stripped v) :
    normPlace (Val.dict [("kind", Val.str k), ("value", Val.str v)]) p
      = Val.dict [("kind", Val.str k), ("value", Val.str v)] := by
  simp only [normPlace, pyGet_cons_self]
  rw [pyGet_cons_ne _ _ (show ("kind" : String) ≠ "value" by decide), pyGet_cons_self,
    ensureString_str_self hks hkne, ensureString_str_self hvs hv]
  have hc : ((decide (k = "stop") || decide (k = "street") || decide (k = "crossroad"))
      && decide (v ≠ "")) = true := by
    rcases hk with h | h | h <;> simp [h, hv]
  rw [if_pos hc]

/-- The dict case of `normPlace_out`. -/
theorem normPlace_dict_out (pkvs : List (String × Val)) (p : AnalyzeRequest) :
    (normPlace (Val.dict pkvs) p = Val.none ∧
      normalizeKnownFieldList (pyGet p.known_fields "places") = []) ∨
    ∃ k v, normPlace (Val.dict pkvs) p = Val.dict [("kind", Val.str k), ("value", Val.str v)] ∧
      (k = "stop" ∨ k = "street" ∨ k = "crossroad") ∧
      Stripped k ∧ k ≠ "" ∧ v ≠ "" ∧ Stripped v := by
  simp only [normPlace]
  split
  · next hcond =>
    rw [Bool.and_eq_true] at hcond
    obtain ⟨hkor, hvne⟩ := hcond
    have hkor' : ensureString (pyGet pkvs "kind") "" = "stop"
        ∨ ensureString (pyGet pkvs "kind") "" = "street"
        ∨ ensureString (pyGet pkvs "kind") "" = "crossroad" := by
      rcases Bool.or_eq_true_iff.mp hkor with h2 | h2
      · rcases Bool.or_eq_true_iff.mp h2 with h3 | h3
        · exact Or.inl (by simpa using h3)
        · exact Or.inr (Or.inl (by simpa using h3))
      · exact Or.inr (Or.inr (by simpa using h2))
    refine Or.inr ⟨_, _, rfl, hkor', ensureString_stripped _ stripped_empty, ?_,
      by simpa using hvne, ensureString_stripped _ stripped_empty⟩
    rcases hkor' with h | h | h <;> (rw [h]; decide)
  · rcases hnk : normalizeKnownFieldList (pyGet p.known_fields "places") with _ | ⟨kp, ks⟩
    · exact Or.inl ⟨rfl, rfl⟩
    · obtain ⟨hkps, hkpne⟩ := mem_normalizeKnownFieldList
        (show kp ∈ normalizeKnownFieldList (pyGet p.known_fields "places") from
          by rw [hnk]; exact List.mem_cons_self kp ks)
      exact Or.inr ⟨"stop", kp, rfl, Or.inl rfl, stripped_of_eq (by decide),
        by decide, hkpne, hkps⟩

/-- The non-dict case of `normPlace_out` (every non-dict raw place falls to the
substituted value). -/
theorem normPlace_none_out (p : AnalyzeRequest) :
    (normPlace Val.none p = Val.none ∧
      normalizeKnownFieldList (pyGet p.known_fields "places") = []) ∨
    ∃ k v, normPlace Val.none p = Val.dict [("kind", Val.str k), ("value", Val.str v)] ∧
      (k = "stop" ∨ k = "street" ∨ k = "crossroad") ∧
      Stripped k ∧ k ≠ "" ∧ v ≠ "" ∧ Stripped v := by
  rcases hnk : normalizeKnownFieldList (pyGet p.known_fields "places") with _ | ⟨kp, ks⟩
  · exact Or.inl ⟨by simp only [normPlace, hnk], rfl⟩
  · obtain ⟨hkps, hkpne⟩ := mem_normalizeKnownFieldList
      (show kp ∈ normalizeKnownFieldList (pyGet p.known_fields "places") from
        by rw [hnk]; exact List.mem_cons_self kp ks)
    exact Or.inr ⟨"stop", kp, by simp only [normPlace, hnk], Or.inl rfl,
      stripped_of_eq (by decide), by decide, hkpne, hkps⟩

/-- The output of `normPlace` is `None` (only possible with no known place)
or a well-formed place dict with validated, stripped components. -/
theorem normPlace_out (placeRaw : Val) (p : AnalyzeRequest) :
    (normPlace placeRaw p = Val.none ∧
      normalizeKnownFieldList (pyGet p.known_fields "places") = []) ∨
    ∃ k v, normPlace placeRaw p = Val.dict [("kind", Val.str k), ("value", Val.str v)] ∧
      (k = "stop" ∨ k = "street" ∨ k = "crossroad") ∧
      Stripped k ∧ k ≠ "" ∧ v ≠ "" ∧ Stripped v := by
  match placeRaw with
  | .dict pkvs => exact normPlace_dict_out pkvs p
  | .none => exact normPlace_none_out p
  | .bool b => exact normPlace_none_out p
  | .int n => exact normPlace_none_out p
  | .float m e => exact normPlace_none_out p
  | .str s => exact normPlace_none_out p
  | .list xs => exact normPlace_none_out p

theorem normPlace_none_fix (p : AnalyzeRequest)
    (hnk : normalizeKnownFieldList (pyGet p.known_fields "places") = []) :
    normPlace Val.none p = Val.none := by
  simp only [normPlace, hnk]

theorem normPlace_idem (placeRaw : Val) (p : AnalyzeRequest) :
    normPlace (normPlace placeRaw p) p = normPlace placeRaw p := by
  rcases normPlace_out placeRaw p with ⟨h, hnk⟩ | ⟨k, v, h, hk, hks, hkne, hv, hvs⟩
  · rw [h]
    exact normPlace_none_fix p hnk
  · rw [h]
    exact normPlace_valid p hk hks hkne hv hvs

theorem normalizeAspects_roundtrip {as : List String} (hsub : ∀ a ∈ as, a ∈ ASPECT_NAMES)
    (hne : as ≠ []) :
    normalizeAspects (Val.list (as.map Val.str)) = as := by
  simp only [normalizeAspects, List.filterMap_map]
  rw [filterMap_eq_self_of (fun a ha => by
    show (if ASPECT_NAMES.contains a then some a else Option.none) = some a
    rw [if_pos (by simpa using hsub a ha)])]
  simp [List.isEmpty_iff, hne]

theorem filterMap_normObject_idem (objs : List Val) :
    (objs.filterMap normObject).filterMap normObject = objs.filterMap normObject :=
  filterMap_eq_self_of fun o ho => by
    rw [List.mem_filterMap] at ho
    obtain ⟨s, hsm, hs⟩ := ho
    exact normObject_idem hs

theorem normTupleItem_fix (p : AnalyzeRequest) (OBJ : List Val) (T : String) (PL : Val)
    (AS : List String)
    (hOBJ : ∀ o ∈ OBJ, normObject o = some o) (hT : Stripped T) (hTne : T ≠ "")
    (hPL : normPlace PL p = PL) (hAS : ∀ a ∈ AS, a ∈ ASPECT_NAMES) (hASne : AS ≠ []) :
    normTupleItem p (Val.dict [("objects", Val.list OBJ), ("time", Val.str T), ("place", PL), ("aspects", Val.list (AS.map Val.str))]) = some (Val.dict [("objects", Val.list OBJ), ("time", Val.str T), ("place", PL), ("aspects", Val.list (AS.map Val.str))]) := by
  have h1 : pyGet [("objects", Val.list OBJ), ("time", Val.str T), ("place", PL), ("aspects", Val.list (AS.map Val.str))] "objects" = Val.list OBJ := rfl
  have h2 : pyGet [("objects", Val.list OBJ), ("time", Val.str T), ("place", PL), ("aspects", Val.list (AS.map Val.str))] "time" = Val.str T := rfl
  have h3 : pyGet [("objects", Val.list OBJ), ("time", Val.str T), ("place", PL), ("aspects", Val.list (AS.map Val.str))] "place" = PL := rfl
  have h4 : pyGet [("objects", Val.list OBJ), ("time", Val.str T), ("place", PL), ("aspects", Val.list (AS.map Val.str))] "aspects" = Val.list (AS.map Val.str) := rfl
  simp only [normTupleItem, h1, h2, h3, h4]
  rw [filterMap_eq_self_of hOBJ, ensureString_str_self hT hTne, hPL,
    normalizeAspects_roundtrip hAS hASne]

theorem normTupleItem_idem {p : AnalyzeRequest} {item t : Val}
    (h : normTupleItem p item = some t) : normTupleItem p t = some t := by
  match item with
  | .dict kvs =>
    simp only [normTupleItem] at h
    injection h with h
    subst h
    refine normTupleItem_fix p _ _ _ _ ?_ (ensureString_stripped _ (defaultTime_stripped p))
      (ensureString_ne_empty _ (defaultTime_ne_empty p)) (normPlace_idem _ p)
      (normalizeAspects_subset _) (normalizeAspects_ne_nil _)
    cases hro : pyGet kvs "objects" with
    | list objs =>
      intro o ho
      have ho' : o ∈ objs.filterMap normObject := ho
      rw [List.mem_filterMap] at ho'
      obtain ⟨s, hsm, hs⟩ := ho'
      exact normObject_idem hs
    | none => exact fun o ho => absurd (show o ∈ ([] : List Val) from ho) (List.not_mem_nil o)
    | bool b => exact fun o ho => absurd (show o ∈ ([] : List Val) from ho) (List.not_mem_nil o)
    | int n => exact fun o ho => absurd (show o ∈ ([] : List Val) from ho) (List.not_mem_nil o)
    | float m e => exact fun o ho => absurd (show o ∈ ([] : List Val) from ho) (List.not_mem_nil o)
    | str s => exact fun o ho => absurd (show o ∈ ([] : List Val) from ho) (List.not_mem_nil o)
    | dict d => exact fun o ho => absurd (show o ∈ ([] : List Val) from ho) (List.not_mem_nil o)
  | .none => cases h
  | .bool b => cases h
  | .int n => cases h
  | .float m e => cases h
  | .str s => cases h
  | .list xs => cases h

theorem mem_normalizeTuples {raw : Val} {p : AnalyzeRequest} {t : Val}
    (ht : t ∈ normalizeTuples raw p) : ∃ item, normTupleItem p item = some t := by
  match raw with
  | .list items =>
    have ht' : t ∈ items.filterMap (normTupleItem p) := ht
    rw [List.mem_filterMap] at ht'
    obtain ⟨i, him, hi⟩ := ht'
    exact ⟨i, hi⟩
  | .none => exact absurd (show t ∈ ([] : List Val) from ht) (List.not_mem_nil t)
  | .bool b => exact absurd (show t ∈ ([] : List Val) from ht) (List.not_mem_nil t)
  | .int n => exact absurd (show t ∈ ([] : List Val) from ht) (List.not_mem_nil t)
  | .float m e => exact absurd (show t ∈ ([] : List Val) from ht) (List.not_mem_nil t)
  | .str s => exact absurd (show t ∈ ([] : List Val) from ht) (List.not_mem_nil t)
  | .dict kvs => exact absurd (show t ∈ ([] : List Val) from ht) (List.not_mem_nil t)

theorem normalizeTuples_idem (raw : Val) (p : AnalyzeRequest) :
    normalizeTuples (Val.list (normalizeTuples raw p)) p = normalizeTuples raw p := by
  show (normalizeTuples raw p).filterMap (normTupleItem p) = normalizeTuples raw p
  exact filterMap_eq_self_of fun t ht => by
    obtain ⟨i, hi⟩ := mem_normalizeTuples ht
    exact normTupleItem_idem hi

theorem mem_extractedList {raw : Val} {key x : String}
    (hx : x ∈ extractedList raw key) : Stripped x ∧ x ≠ "" := by
  match raw with
  | .dict kvs =>
    rcases hg : dGet kvs key with _ | v
    · simp only [extractedList, hg] at hx
      exact absurd hx (List.not_mem_nil x)
    · match v with
      | .list xs =>
        simp only [extractedList, hg] at hx
        rw [List.mem_filterMap] at hx
        obtain ⟨v0, hv0m, hv0⟩ := hx
        by_cases hc : pyStrip (pyStr v0) ≠ ""
        · rw [if_pos hc] at hv0
          cases hv0
          exact ⟨stripped_pyStrip _, hc⟩
        · rw [if_neg hc] at hv0
          cases hv0
      | .none =>
        simp only [extractedList, hg] at hx
        exact absurd hx (List.not_mem_nil x)
      | .bool b =>
        simp only [extractedList, hg] at hx
        exact absurd hx (List.not_mem_nil x)
      | .int n =>
        simp only [extractedList, hg] at hx
        exact absurd hx (List.not_mem_nil x)
      | .float m e =>
        simp only [extractedList, hg] at hx
        exact absurd hx (List.not_mem_nil x)
      | .str s =>
        simp only [extractedList, hg] at hx
        exact absurd hx (List.not_mem_nil x)
      | .dict d =>
        simp only [extractedList, hg] at hx
        exact absurd hx (List.not_mem_nil x)
  | .none => exact absurd (show x ∈ ([] : List String) from hx) (List.not_mem_nil x)
  | .bool b => exact absurd (show x ∈ ([] : List String) from hx) (List.not_mem_nil x)
  | .int n => exact absurd (show x ∈ ([] : List String) from hx) (List.not_mem_nil x)
  | .float m e => exact absurd (show x ∈ ([] : List String) from hx) (List.not_mem_nil x)
  | .str s => exact absurd (show x ∈ ([] : List String) from hx) (List.not_mem_nil x)
  | .list xs => exact absurd (show x ∈ ([] : List String) from hx) (List.not_mem_nil x)

theorem extractedList_norm (raw : Val) (key : String) (l : List String)
    (h : dGet (normalizeExtractedFields raw) key = some (Val.list (l.map Val.str)))
    (hl : ∀ x ∈ l, Stripped x ∧ x ≠ "") :
    extractedList (Val.dict (normalizeExtractedFields raw)) key = l := by
  have h0 : extractedList (Val.dict (normalizeExtractedFields raw)) key
      = (l.map Val.str).filterMap (fun item =>
          if pyStrip (pyStr item) ≠ "" then some (pyStrip (pyStr item))
          else Option.none) := by
    simp only [extractedList, h]
  rw [h0, List.filterMap_map]
  exact filterMap_eq_self_of fun x hx => by
    obtain ⟨h1, h2⟩ := hl x hx
    show (if pyStrip (pyStr (Val.str x)) ≠ "" then some (pyStrip (pyStr (Val.str x)))
        else Option.none) = some x
    rw [show pyStr (Val.str x) = x from rfl, (h1 : pyStrip x = x), if_pos h2]

theorem normalizeExtractedFields_idem (raw : Val) :
    normalizeExtractedFields (Val.dict (normalizeExtractedFields raw))
      = normalizeExtractedFields raw := by
  have hrn := extractedList_norm raw "route_numbers" (extractedList raw "route_numbers")
    rfl (fun x hx => mem_extractedList hx)
  have hbp := extractedList_norm raw "bus_plates" (extractedList raw "bus_plates")
    rfl (fun x hx => mem_extractedList hx)
  have hpl := extractedList_norm raw "places" (extractedList raw "places")
    rfl (fun x hx => mem_extractedList hx)
  show [("route_numbers", Val.list ((extractedList (Val.dict (normalizeExtractedFields raw))
          "route_numbers").map Val.str)),
        ("bus_plates", Val.list ((extractedList (Val.dict (normalizeExtractedFields raw))
          "bus_plates").map Val.str)),
        ("places", Val.list ((extractedList (Val.dict (normalizeExtractedFields raw))
          "places").map Val.str))]
      = normalizeExtractedFields raw
  rw [hrn, hbp, hpl]
  rfl

theorem acEntry_isPyInt (raw : Val) (name : String) : isPyInt (acEntry raw name) = true := by
  unfold acEntry
  match raw with
  | .dict kvs =>
    match hg : dGet kvs name with
    | Option.none => simp [hg, isPyInt]
    | some v =>
      simp only [hg]
      split
      · next hc =>
        rw [Bool.and_eq_true] at hc
        exact hc.1
      · rfl
  | .none => rfl
  | .bool b => rfl
  | .int n => rfl
  | .float m e => rfl
  | .str s => rfl
  | .list xs => rfl

theorem acFinal_props (raw : Val) (fl : List String) (name : String) :
    isPyInt (acFinal raw fl name) = true ∧ pyIntGe0 (acFinal raw fl name) = true := by
  unfold acFinal
  split
  · refine ⟨rfl, ?_⟩
    show pyIntGe0 (Val.int (pyAsInt (acEntry raw name) + (fl.count name : Int))) = true
    have h1 : 0 ≤ pyAsInt (acEntry raw name) :=
      pyAsInt_nonneg_of_ge0 (acEntry_ge0 raw name)
    have h2 : (0 : Int) ≤ (fl.count name : Int) := by positivity
    simp only [pyIntGe0, decide_eq_true_eq]
    omega
  · exact ⟨acEntry_isPyInt raw name, acEntry_ge0 raw name⟩

theorem acEntry_prev (raw : Val) (fl : List String) {name : String}
    (hname : name ∈ ASPECT_NAMES) :
    acEntry (Val.dict (normalizeAspectsCount raw fl)) name = acFinal raw fl name := by
  simp only [acEntry, normalizeAC_dGet raw fl hname]
  rw [if_pos (by rw [(acFinal_props raw fl name).1, (acFinal_props raw fl name).2]; rfl)]

theorem pyTruthy_int_false {k : Int} (h : pyTruthy (Val.int k) = false) : k = 0 := by
  simpa [pyTruthy] using h

theorem falsy_pyAsInt {v : Val} (h : pyTruthy v = false) : pyAsInt v = 0 := by
  match v with
  | .int n => simpa [pyTruthy, pyAsInt] using h
  | .bool true => simp [pyTruthy] at h
  | .bool false => rfl
  | .none => rfl
  | .float m e => rfl
  | .str s => rfl
  | .list xs => rfl
  | .dict kvs => rfl

theorem acRecompute_all_falsy {raw : Val} {fl : List String}
    (h : acRecompute raw fl = true) :
    ∀ m ∈ ASPECT_NAMES, pyTruthy (acEntry raw m) = false := by
  unfold acRecompute at h
  rw [Bool.and_eq_true] at h
  have h1 : (ASPECT_NAMES.any fun n => pyTruthy (acEntry raw n)) = false := by
    have := h.1
    rwa [Bool.not_eq_true'] at this
  intro m hm
  rw [List.any_eq_false] at h1
  simpa using h1 m hm

theorem acRecompute_false_entry {raw : Val} {fl : List String}
    (h : acRecompute raw fl = false) (hfl : fl ≠ []) :
    ∃ m ∈ ASPECT_NAMES, pyTruthy (acEntry raw m) = true := by
  unfold acRecompute at h
  rcases Bool.and_eq_false_iff.mp h with h1 | h1
  · rw [Bool.not_eq_false'] at h1
    obtain ⟨m, hm, hmt⟩ := List.any_eq_true.mp h1
    exact ⟨m, hm, hmt⟩
  · rw [Bool.not_eq_false'] at h1
    exact absurd (List.isEmpty_iff.mp h1) hfl

theorem acFinal_idem (raw : Val) (fl : List String) {name : String}
    (hname : name ∈ ASPECT_NAMES) :
    acFinal (Val.dict (normalizeAspectsCount raw fl)) fl name = acFinal raw fl name := by
  by_cases hr2 : acRecompute (Val.dict (normalizeAspectsCount raw fl)) fl = true
  · have hfl : fl ≠ [] := by
      unfold acRecompute at hr2
      rw [Bool.and_eq_true] at hr2
      simpa [List.isEmpty_iff] using hr2.2
    have hfalsy := acRecompute_all_falsy hr2
    have hfalsy' : ∀ m ∈ ASPECT_NAMES, pyTruthy (acFinal raw fl m) = false := fun m hm => by
      rw [← acEntry_prev raw fl hm]
      exact hfalsy m hm
    have hr1 : acRecompute raw fl = true := by
      by_contra hr1'
      rw [Bool.not_eq_true] at hr1'
      obtain ⟨m, hm, hmt⟩ := acRecompute_false_entry hr1' hfl
      have hfm := hfalsy' m hm
      rw [show acFinal raw fl m = acEntry raw m from by
        unfold acFinal
        rw [if_neg (by simp [hr1'])]] at hfm
      simp [hfm] at hmt
    have h2 : pyAsInt (acEntry raw name) = 0 :=
      falsy_pyAsInt (acRecompute_all_falsy hr1 name hname)
    have hcount0 : (fl.count name : Int) = 0 := by
      have h1 := hfalsy' name hname
      rw [show acFinal raw fl name
          = Val.int (pyAsInt (acEntry raw name) + (fl.count name : Int)) from by
        unfold acFinal
        rw [if_pos hr1]] at h1
      rw [h2, zero_add] at h1
      exact pyTruthy_int_false h1
    rw [show acFinal (Val.dict (normalizeAspectsCount raw fl)) fl name
        = Val.int (pyAsInt (acEntry (Val.dict (normalizeAspectsCount raw fl)) name)
            + (fl.count name : Int)) from by
      unfold acFinal
      rw [if_pos hr2]]
    rw [acEntry_prev raw fl hname]
    rw [show acFinal raw fl name
        = Val.int (pyAsInt (acEntry raw name) + (fl.count name : Int)) from by
      unfold acFinal
      rw [if_pos hr1]]
    rw [h2, hcount0]
    rfl
  · rw [show acFinal (Val.dict (normalizeAspectsCount raw fl)) fl name
        = acEntry (Val.dict (normalizeAspectsCount raw fl)) name from by
      unfold acFinal
      rw [if_neg hr2]]
    exact acEntry_prev raw fl hname

theorem normalizeAspectsCount_idem (raw : Val) (fl : List String) :
    normalizeAspectsCount (Val.dict (normalizeAspectsCount raw fl)) fl
      = normalizeAspectsCount raw fl := by
  have h : ASPECT_NAMES.map
        (fun n => (n, acFinal (Val.dict (normalizeAspectsCount raw fl)) fl n))
      = ASPECT_NAMES.map (fun n => (n, acFinal raw fl n)) :=
    List.map_congr_left fun n hn => by rw [acFinal_idem raw fl hn]
  exact h

/-! ## Claim C5: the record produced by the Normalizer is a fixed point -/

/-- A stored clarifying-question value left unchanged by `clarStep`. -/
def QOk (n : Dict) (key : String) : Prop :=
  pyGet n key = Val.none ∨
  ∃ s, dGet n key = some (Val.str s) ∧ Stripped s ∧ s ≠ ""

theorem clarStep_fixed {n : Dict} {key : String} (h : QOk n key) : clarStep n key = n := by
  rcases h with h | ⟨s, hg, hs, hne⟩
  · unfold clarStep
    rw [h]
  · have hpg : pyGet n key = Val.str s := by simp [pyGet, hg]
    unfold clarStep
    rw [hpg]
    show (if ensureString (Val.str s) "" = "" then dSet n key Val.none
      else dSet n key (Val.str (ensureString (Val.str s) ""))) = n
    rw [ensureString_str_self hs hne, if_neg hne, dSet_eq_of_dGet hg]

/-- A record already in the image of the Normalizer is a fixed point of the
pre-Enforcer pass. -/
theorem normalizePre_fixed (n : Dict) (p : AnalyzeRequest)
    (hneed : ∃ b, dGet n "need_clarification" = some (Val.bool b))
    (hmiss : ∃ ms : List String, dGet n "missing_slots" = some (Val.list (ms.map Val.str)) ∧
      ∀ s ∈ ms, Stripped s ∧ s ≠ "")
    (hpri : ∃ pr, dGet n "priority" = some (Val.str pr) ∧ pr ∈ PRIORITY_VALUES)
    (htup : ∃ rawT, dGet n "tuples" = some (Val.list (normalizeTuples rawT p)) ∧
      ∃ rawA, dGet n "aspects_count" = some (Val.dict (normalizeAspectsCount rawA
        ((normalizeTuples rawT p).flatMap tupleAspects))))
    (hrk : ∃ s, dGet n "recommendation_kk" = some (Val.str s) ∧ Stripped s ∧ s ≠ "")
    (hrr : ∃ s, dGet n "recommendation_ru" = some (Val.str s) ∧ Stripped s ∧ s ≠ "")
    (hlang : ∃ l, dGet n "language" = some (Val.str l) ∧ (l = "kk" ∨ l = "ru"))
    (hex : ∃ rawE, dGet n "extracted_fields"
      = some (Val.dict (normalizeExtractedFields rawE)))
    (hqk : QOk n "clarifying_question_kk")
    (hqr : QOk n "clarifying_question_ru") :
    normalizePre n p = n := by
  obtain ⟨b, hb⟩ := hneed
  obtain ⟨ms, hms, hmse⟩ := hmiss
  obtain ⟨pr, hpr, hprm⟩ := hpri
  obtain ⟨rawT, hT, rawA, hA⟩ := htup
  obtain ⟨rk, hrkd, hrks, hrkne⟩ := hrk
  obtain ⟨rr, hrrd, hrrs, hrrne⟩ := hrr
  obtain ⟨lg, hlgd, hlgc⟩ := hlang
  obtain ⟨rawE, hE⟩ := hex
  have pgb : pyGet n "need_clarification" = Val.bool b := by simp [pyGet, hb]
  have pgm : pyGet n "missing_slots" = Val.list (ms.map Val.str) := by simp [pyGet, hms]
  have pgp : pyGet n "priority" = Val.str pr := by simp [pyGet, hpr]
  have pgt : pyGet n "tuples" = Val.list (normalizeTuples rawT p) := by simp [pyGet, hT]
  have pga : pyGet n "aspects_count" = Val.dict (normalizeAspectsCount rawA
      ((normalizeTuples rawT p).flatMap tupleAspects)) := by simp [pyGet, hA]
  have pgrk : pyGet n "recommendation_kk" = Val.str rk := by simp [pyGet, hrkd]
  have pgrr : pyGet n "recommendation_ru" = Val.str rr := by simp [pyGet, hrrd]
  have pglg : pyGet n "language" = Val.str lg := by simp [pyGet, hlgd]
  have pgex : pyGet n "extracted_fields" = Val.dict (normalizeExtractedFields rawE) := by
    simp [pyGet, hE]
  have hprs : Stripped pr := (priority_vals_ok pr hprm).1
  have hprne : pr ≠ "" := (priority_vals_ok pr hprm).2
  have hcont : PRIORITY_VALUES.contains pr = true := by simpa using hprm
  have hlgs : Stripped lg := by
    rcases hlgc with h | h <;> (rw [h]; exact stripped_of_eq (by decide))
  have hlgne : lg ≠ "" := by rcases hlgc with h | h <;> (rw [h]; decide)
  have hlglower : pyLower lg = lg := by rcases hlgc with h | h <;> (rw [h]; decide)
  have hlgcond : (lg = "kk" || lg = "ru") = true := by rcases hlgc with h | h <;> simp [h]
  simp only [normalizePre]
  rw [pgb, show pyTruthy (Val.bool b) = b from rfl, dSet_eq_of_dGet hb]
  rw [pgm, ensureStrList_roundtrip hmse, dSet_eq_of_dGet hms]
  rw [pgp, ensureString_str_self hprs hprne, if_pos hcont, dSet_eq_of_dGet hpr]
  rw [pgt, normalizeTuples_idem rawT p, dSet_eq_of_dGet hT]
  rw [pga, normalizeAspectsCount_idem, dSet_eq_of_dGet hA]
  rw [pgrk, ensureString_str_self hrks hrkne, dSet_eq_of_dGet hrkd]
  rw [pgrr, ensureString_str_self hrrs hrrne, dSet_eq_of_dGet hrrd]
  rw [pglg, ensureString_str_self hlgs hlgne, hlglower, if_pos hlgcond,
    dSet_eq_of_dGet hlgd]
  rw [pgex, normalizeExtractedFields_idem rawE, dSet_eq_of_dGet hE]
  rw [clarStep_fixed hqk, clarStep_fixed hqr]

/-! ## Claim C5: the final missing list is a fixed point -/

theorem dedup_go_mem (l : List String) (acc : List String) (s : String) :
    (s ∈ l.foldl (fun acc s => if acc.contains s then acc else acc ++ [s]) acc) ↔
      s ∈ acc ∨ s ∈ l := by
  induction l generalizing acc with
  | nil => simp
  | cons a t ih =>
    simp only [List.foldl_cons]
    by_cases ha : acc.contains a = true
    · rw [if_pos ha, ih]
      have ham : a ∈ acc := by simpa using ha
      constructor
      · rintro (h | h)
        · exact Or.inl h
        · exact Or.inr (List.mem_cons_of_mem a h)
      · rintro (h | h)
        · exact Or.inl h
        · rcases List.mem_cons.mp h with rfl | h
          · exact Or.inl ham
          · exact Or.inr h
    · rw [if_neg ha, ih]
      rw [List.mem_append, List.mem_singleton, List.mem_cons]
      tauto

theorem mem_dedupFirst (l : List String) (s : String) :
    s ∈ dedupFirst l ↔ s ∈ l := by
  unfold dedupFirst
  rw [dedup_go_mem]
  simp

theorem dedup_go_nodup (l : List String) (acc : List String) (hacc : acc.Nodup) :
    (l.foldl (fun acc s => if acc.contains s then acc else acc ++ [s]) acc).Nodup := by
  induction l generalizing acc with
  | nil => simpa
  | cons a t ih =>
    simp only [List.foldl_cons]
    by_cases ha : acc.contains a = true
    · rw [if_pos ha]
      exact ih acc hacc
    · rw [if_neg ha]
      refine ih _ ?_
      rw [List.nodup_append]
      refine ⟨hacc, List.nodup_singleton a, ?_⟩
      intro x hx hx'
      rw [List.mem_singleton] at hx'
      subst hx'
      exact ha (by simpa using hx)

theorem dedupFirst_nodup (l : List String) : (dedupFirst l).Nodup :=
  dedup_go_nodup l [] List.nodup_nil

theorem dedup_go_self (l : List String) (acc : List String) (h : l.Nodup)
    (hd : ∀ s ∈ l, s ∉ acc) :
    l.foldl (fun acc s => if acc.contains s then acc else acc ++ [s]) acc = acc ++ l := by
  induction l generalizing acc with
  | nil => simp
  | cons a t ih =>
    simp only [List.foldl_cons]
    have ha : ¬ acc.contains a = true := by
      simpa using hd a (List.mem_cons_self a t)
    rw [if_neg ha]
    obtain ⟨hat, htn⟩ := List.nodup_cons.mp h
    rw [ih _ htn ?_]
    · simp
    · intro s hs
      rw [List.mem_append, List.mem_singleton]
      rintro (h1 | rfl)
      · exact hd s (List.mem_cons_of_mem a hs) h1
      · exact hat hs

theorem dedupFirst_eq_self {l : List String} (h : l.Nodup) : dedupFirst l = l := by
  unfold dedupFirst
  rw [dedup_go_self l [] h (by simp)]
  simp

theorem mandatoryMissing_subset (n : Dict) (p : AnalyzeRequest) :
    ∀ s ∈ mandatoryMissing n p, s ∈ MANDATORY_SLOTS := by
  intro s hs
  unfold mandatoryMissing at hs
  rw [List.mem_append, List.mem_append] at hs
  rcases hs with (h | h) | h <;> (rw [mem_ite_singleton h]; decide)

theorem enforceMissing_fixpoint (E mm : List String)
    (hmm : ∀ s ∈ mm, s ∈ MANDATORY_SLOTS) :
    appendMandatory mm (filterExist (appendMandatory mm (filterExist E mm)) mm)
      = appendMandatory mm (filterExist E mm) := by
  have hFsub : ∀ s ∈ filterExist E mm,
      (!(MANDATORY_SLOTS.contains s && !mm.contains s)) = true := by
    intro s hs
    rw [filterExist_eq, mem_dedupFirst] at hs
    exact (List.mem_filter.mp hs).2
  have hFnodup : (filterExist E mm).Nodup := by
    rw [filterExist_eq]
    exact dedupFirst_nodup _
  have hGdef : appendMandatory mm (filterExist E mm)
      = filterExist E mm ++ (MANDATORY_SLOTS.filter fun slot =>
          mm.contains slot && !(filterExist E mm).contains slot) :=
    appendMandatory_eq _ _
  have hPM : ∀ s ∈ appendMandatory mm (filterExist E mm),
      (!(MANDATORY_SLOTS.contains s && !mm.contains s)) = true := by
    intro s hs
    rw [hGdef, List.mem_append] at hs
    rcases hs with hs | hs
    · exact hFsub s hs
    · have hc := (List.mem_filter.mp hs).2
      rw [Bool.and_eq_true] at hc
      have hsm : s ∈ mm := by simpa using hc.1
      simp [hsm]
  have hMnodup : (appendMandatory mm (filterExist E mm)).Nodup := by
    rw [hGdef, List.nodup_append]
    refine ⟨hFnodup, List.Nodup.filter _ (by decide), ?_⟩
    intro x hxF hxG
    have hc := (List.mem_filter.mp hxG).2
    rw [Bool.and_eq_true] at hc
    have h2 := hc.2
    rw [Bool.not_eq_true'] at h2
    have h2' : x ∉ filterExist E mm := by simpa using h2
    exact h2' hxF
  have hfix1 : filterExist (appendMandatory mm (filterExist E mm)) mm
      = appendMandatory mm (filterExist E mm) := by
    rw [filterExist_eq, List.filter_eq_self.mpr hPM]
    exact dedupFirst_eq_self hMnodup
  rw [hfix1, appendMandatory_eq]
  have hnil : (MANDATORY_SLOTS.filter fun slot =>
      mm.contains slot && !(appendMandatory mm (filterExist E mm)).contains slot) = [] := by
    rw [List.filter_eq_nil_iff]
    intro s hsM hc
    rw [Bool.and_eq_true] at hc
    obtain ⟨h1, h2⟩ := hc
    have hsmm : s ∈ mm := by simpa using h1
    have hsM' : s ∈ appendMandatory mm (filterExist E mm) := by
      rw [hGdef, List.mem_append]
      by_cases hF : s ∈ filterExist E mm
      · exact Or.inl hF
      · right
        rw [List.mem_filter]
        refine ⟨hmm s hsmm, ?_⟩
        rw [Bool.and_eq_true]
        exact ⟨h1, by simpa using hF⟩
    rw [Bool.not_eq_true'] at h2
    have h2' : s ∉ appendMandatory mm (filterExist E mm) := by simpa using h2
    exact h2' hsM'
  rw [hnil, List.append_nil]

/-! ## Claim C5: the Enforcer branch values at the `dGet` level -/

theorem mb_dGet_need (n : Dict) (m : List String) :
    dGet (enforceMissingBranch n m) "need_clarification" = some (Val.bool true) := by
  simp [enforceMissingBranch, dGet_ite, pyGet_ite, pyGet_dSet_ne, pyGet_dSet_self,
    dGet_dSet_ne, dGet_dSet_self]

theorem mb_dGet_missing (n : Dict) (m : List String) :
    dGet (enforceMissingBranch n m) "missing_slots"
      = some (Val.list (m.map Val.str)) := by
  simp [enforceMissingBranch, dGet_ite, pyGet_ite, pyGet_dSet_ne, pyGet_dSet_self,
    dGet_dSet_ne, dGet_dSet_self]

theorem mb_dGet_qru (n : Dict) (m : List String) :
    dGet (enforceMissingBranch n m) "clarifying_question_ru"
      = (if ensureString (pyGet n "clarifying_question_ru") "" = "" then
          some (optStrToVal (clarificationRu (m.headD "")))
        else dGet n "clarifying_question_ru") := by
  simp [enforceMissingBranch, dGet_ite, pyGet_ite, pyGet_dSet_ne, pyGet_dSet_self,
    dGet_dSet_ne, dGet_dSet_self]

theorem mb_dGet_qkk (n : Dict) (m : List String) :
    dGet (enforceMissingBranch n m) "clarifying_question_kk"
      = (if ensureString (pyGet n "clarifying_question_kk") "" = "" then
          some (optStrToVal (clarificationKk (m.headD "")))
        else dGet n "clarifying_question_kk") := by
  simp [enforceMissingBranch, dGet_ite, pyGet_ite, pyGet_dSet_ne, pyGet_dSet_self,
    dGet_dSet_ne, dGet_dSet_self]

theorem eb_dGet_missing (n : Dict) :
    dGet (enforceEmptyBranch n) "missing_slots" = some (Val.list []) := by
  simp [enforceEmptyBranch, dGet_ite, pyGet_ite, pyGet_dSet_ne, pyGet_dSet_self,
    dGet_dSet_ne, dGet_dSet_self]

theorem eb_dGet_need (n : Dict) :
    dGet (enforceEmptyBranch n) "need_clarification"
      = (if pyTruthy (pyGet n "need_clarification") then some (Val.bool false)
        else dGet n "need_clarification") := by
  simp [enforceEmptyBranch, dGet_ite, pyGet_ite, pyGet_dSet_ne, pyGet_dSet_self,
    dGet_dSet_ne, dGet_dSet_self, pyTruthy]

theorem eb_dGet_qru (n : Dict) :
    dGet (enforceEmptyBranch n) "clarifying_question_ru"
      = (if pyTruthy (pyGet n "clarifying_question_ru") then
          dGet n "clarifying_question_ru"
        else some Val.none) := by
  simp [enforceEmptyBranch, dGet_ite, pyGet_ite, pyGet_dSet_ne, pyGet_dSet_self,
    dGet_dSet_ne, dGet_dSet_self, pyTruthy]
  split <;> simp_all

theorem eb_dGet_qkk (n : Dict) :
    dGet (enforceEmptyBranch n) "clarifying_question_kk"
      = (if pyTruthy (pyGet n "clarifying_question_kk") then
          dGet n "clarifying_question_kk"
        else some Val.none) := by
  simp [enforceEmptyBranch, dGet_ite, pyGet_ite, pyGet_dSet_ne, pyGet_dSet_self,
    dGet_dSet_ne, dGet_dSet_self, pyTruthy]
  split <;> simp_all

/-! ## Claim C5: the clarifying questions the Normalizer stores -/

theorem preQ_aux {N : Dict} {key : String} {v : Val}
    (h : dGet N key = some (if ensureString v "" = "" then Val.none
      else Val.str (ensureString v ""))) :
    QOk N key := by
  by_cases hc : ensureString v "" = ""
  · left
    show (dGet N key).getD Val.none = Val.none
    rw [h, if_pos hc]
    rfl
  · right
    refine ⟨ensureString v "", ?_, ensureString_stripped v stripped_empty, hc⟩
    rw [h, if_neg hc]

theorem preQ_qkk (data : Dict) (p : AnalyzeRequest) :
    QOk (normalizePre data p) "clarifying_question_kk" := by
  have h := normalizePre_dGet_qkk data p
  rcases hv : pyGet data "clarifying_question_kk" with _ | b | k | ⟨m, e⟩ | s | xs | kvs <;>
    rw [hv] at h
  · left
    show (dGet (normalizePre data p) "clarifying_question_kk").getD Val.none = Val.none
    rw [h]
    exact hv
  all_goals exact preQ_aux h

theorem preQ_qru (data : Dict) (p : AnalyzeRequest) :
    QOk (normalizePre data p) "clarifying_question_ru" := by
  have h := normalizePre_dGet_qru data p
  rcases hv : pyGet data "clarifying_question_ru" with _ | b | k | ⟨m, e⟩ | s | xs | kvs <;>
    rw [hv] at h
  · left
    show (dGet (normalizePre data p) "clarifying_question_ru").getD Val.none = Val.none
    rw [h]
    exact hv
  all_goals exact preQ_aux h

/-! ## Claim C5: the record after the Enforcer -/

theorem nmp_dGet_other (data : Dict) (p : AnalyzeRequest) {k : String}
    (h1 : k ≠ "need_clarification") (h2 : k ≠ "missing_slots")
    (h3 : k ≠ "clarifying_question_ru") (h4 : k ≠ "clarifying_question_kk") :
    dGet (normalizeModelPayload data p) k = dGet (normalizePre data p) k := by
  unfold normalizeModelPayload
  exact enforce_dGet_other _ _ h1 h2 h3 h4

theorem enforceMissing_ok (n : Dict) (p : AnalyzeRequest) :
    ∀ s ∈ enforceMissing n p, Stripped s ∧ s ≠ "" := by
  intro s hs
  unfold enforceMissing at hs
  rw [appendMandatory_eq, List.mem_append] at hs
  rcases hs with hs | hs
  · rw [filterExist_eq, mem_dedupFirst] at hs
    have h1 := (List.mem_filter.mp hs).1
    unfold existingMissing at h1
    rw [List.mem_filter] at h1
    exact mem_ensureStrList h1.1
  · exact mandatory_slots_ok s (List.mem_filter.mp hs).1

theorem nmp_need (data : Dict) (p : AnalyzeRequest) :
    ∃ b, dGet (normalizeModelPayload data p) "need_clarification"
      = some (Val.bool b) := by
  unfold normalizeModelPayload
  rw [enforce_eq_branches]
  split
  · rw [eb_dGet_need]
    split
    · exact ⟨false, rfl⟩
    · exact ⟨_, normalizePre_dGet_need data p⟩
  · exact ⟨true, mb_dGet_need _ _⟩

theorem nmp_missing (data : Dict) (p : AnalyzeRequest) :
    ∃ ms : List String, dGet (normalizeModelPayload data p) "missing_slots"
      = some (Val.list (ms.map Val.str)) ∧ ∀ s ∈ ms, Stripped s ∧ s ≠ "" := by
  unfold normalizeModelPayload
  rw [enforce_eq_branches]
  split
  · exact ⟨[], eb_dGet_missing _, by simp⟩
  · exact ⟨enforceMissing (normalizePre data p) p, mb_dGet_missing _ _,
      enforceMissing_ok _ _⟩

theorem nmp_pri (data : Dict) (p : AnalyzeRequest) :
    ∃ pr, dGet (normalizeModelPayload data p) "priority" = some (Val.str pr) ∧
      pr ∈ PRIORITY_VALUES :=
  ⟨prePriority data, by
    rw [nmp_dGet_other data p (by decide) (by decide) (by decide) (by decide)]
    exact normalizePre_dGet_priority data p, prePriority_mem data⟩

theorem nmp_tup (data : Dict) (p : AnalyzeRequest) :
    ∃ rawT, dGet (normalizeModelPayload data p) "tuples"
        = some (Val.list (normalizeTuples rawT p)) ∧
      ∃ rawA, dGet (normalizeModelPayload data p) "aspects_count"
        = some (Val.dict (normalizeAspectsCount rawA
            ((normalizeTuples rawT p).flatMap tupleAspects))) :=
  ⟨pyGet data "tuples", by
    rw [nmp_dGet_other data p (by decide) (by decide) (by decide) (by decide)]
    exact normalizePre_dGet_tuples data p,
   pyGet data "aspects_count", by
    rw [nmp_dGet_other data p (by decide) (by decide) (by decide) (by decide)]
    exact normalizePre_dGet_ac data p⟩

theorem nmp_rk (data : Dict) (p : AnalyzeRequest) :
    ∃ s, dGet (normalizeModelPayload data p) "recommendation_kk"
      = some (Val.str s) ∧ Stripped s ∧ s ≠ "" :=
  ⟨ensureString (pyGet data "recommendation_kk")
      (buildRecommendations (prePriority data)).1, by
    rw [nmp_dGet_other data p (by decide) (by decide) (by decide) (by decide)]
    exact normalizePre_dGet_reckk data p,
   ensureString_stripped _ ((buildRecommendations_ok (prePriority_mem data)).1).1,
   ensureString_ne_empty _ ((buildRecommendations_ok (prePriority_mem data)).1).2⟩

theorem nmp_rr (data : Dict) (p : AnalyzeRequest) :
    ∃ s, dGet (normalizeModelPayload data p) "recommendation_ru"
      = some (Val.str s) ∧ Stripped s ∧ s ≠ "" :=
  ⟨ensureString (pyGet data "recommendation_ru")
      (buildRecommendations (prePriority data)).2, by
    rw [nmp_dGet_other data p (by decide) (by decide) (by decide) (by decide)]
    exact normalizePre_dGet_recru data p,
   ensureString_stripped _ ((buildRecommendations_ok (prePriority_mem data)).2).1,
   ensureString_ne_empty _ ((buildRecommendations_ok (prePriority_mem data)).2).2⟩

theorem nmp_lang (data : Dict) (p : AnalyzeRequest) :
    ∃ l, dGet (normalizeModelPayload data p) "language" = some (Val.str l) ∧
      (l = "kk" ∨ l = "ru") :=
  ⟨preLanguage data p, by
    rw [nmp_dGet_other data p (by decide) (by decide) (by decide) (by decide)]
    exact normalizePre_dGet_language data p, preLanguage_cases data p⟩

theorem nmp_ex (data : Dict) (p : AnalyzeRequest) :
    ∃ rawE, dGet (normalizeModelPayload data p) "extracted_fields"
      = some (Val.dict (normalizeExtractedFields rawE)) :=
  ⟨pyGet data "extracted_fields", by
    rw [nmp_dGet_other data p (by decide) (by decide) (by decide) (by decide)]
    exact normalizePre_dGet_extracted data p⟩

theorem nmp_qkk (data : Dict) (p : AnalyzeRequest) :
    QOk (normalizeModelPayload data p) "clarifying_question_kk" := by
  have hNQ := preQ_qkk data p
  unfold normalizeModelPayload
  rw [enforce_eq_branches]
  split
  · rcases hNQ with h | ⟨s, hg, hs, hne⟩
    · left
      rw [eb_qkk, h]
      simp [pyTruthy]
    · right
      refine ⟨s, ?_, hs, hne⟩
      rw [eb_dGet_qkk,
        show pyGet (normalizePre data p) "clarifying_question_kk" = Val.str s from by
          simp [pyGet, hg]]
      rw [if_pos (by simp [pyTruthy, hne])]
      exact hg
  · by_cases hc : ensureString
        (pyGet (normalizePre data p) "clarifying_question_kk") "" = ""
    · rcases hck : clarificationKk
          ((enforceMissing (normalizePre data p) p).headD "") with _ | s
      · left
        simp only [pyGet]
        rw [mb_dGet_qkk, if_pos hc, hck]
        rfl
      · right
        obtain ⟨hs, hne⟩ := clarificationKk_ok hck
        exact ⟨s, by rw [mb_dGet_qkk, if_pos hc, hck]; exact rfl, hs, hne⟩
    · rcases hNQ with h | ⟨s, hg, hs, hne⟩
      · exact absurd (show ensureString
          (pyGet (normalizePre data p) "clarifying_question_kk") "" = "" from by
            rw [h]; rfl) hc
      · exact ⟨s, by rw [mb_dGet_qkk, if_neg hc]; exact hg, hs, hne⟩ |> Or.inr

theorem nmp_qru (data : Dict) (p : AnalyzeRequest) :
    QOk (normalizeModelPayload data p) "clarifying_question_ru" := by
  have hNQ := preQ_qru data p
  unfold normalizeModelPayload
  rw [enforce_eq_branches]
  split
  · rcases hNQ with h | ⟨s, hg, hs, hne⟩
    · left
      rw [eb_qru, h]
      simp [pyTruthy]
    · right
      refine ⟨s, ?_, hs, hne⟩
      rw [eb_dGet_qru,
        show pyGet (normalizePre data p) "clarifying_question_ru" = Val.str s from by
          simp [pyGet, hg]]
      rw [if_pos (by simp [pyTruthy, hne])]
      exact hg
  · by_cases hc : ensureString
        (pyGet (normalizePre data p) "clarifying_question_ru") "" = ""
    · rcases hck : clarificationRu
          ((enforceMissing (normalizePre data p) p).headD "") with _ | s
      · left
        simp only [pyGet]
        rw [mb_dGet_qru, if_pos hc, hck]
        rfl
      · right
        obtain ⟨hs, hne⟩ := clarificationRu_ok hck
        exact ⟨s, by rw [mb_dGet_qru, if_pos hc, hck]; exact rfl, hs, hne⟩
    · rcases hNQ with h | ⟨s, hg, hs, hne⟩
      · exact absurd (show ensureString
          (pyGet (normalizePre data p) "clarifying_question_ru") "" = "" from by
            rw [h]; rfl) hc
      · exact ⟨s, by rw [mb_dGet_qru, if_neg hc]; exact hg, hs, hne⟩ |> Or.inr

/-! ## Claim C5: the Enforcer branches fix their own output -/

theorem qfix_empty {n : Dict} {key : String}
    (h : dGet n key = some Val.none ∨
      ∃ s, dGet n key = some (Val.str s) ∧ s ≠ "") :
    (if !pyTruthy (pyGet n key) then dSet n key Val.none else n) = n := by
  rcases h with hq | ⟨s, hq, hne⟩
  · have hpg : pyGet n key = Val.none := by simp [pyGet, hq]
    rw [hpg]
    simp [pyTruthy, dSet_eq_of_dGet hq]
  · have hpg : pyGet n key = Val.str s := by simp [pyGet, hq]
    rw [hpg]
    simp [pyTruthy, hne]

theorem eb_fixed (n : Dict)
    (hdm : dGet n "missing_slots" = some (Val.list []))
    (hneed : pyGet n "need_clarification" = Val.bool false)
    (hqru : dGet n "clarifying_question_ru" = some Val.none ∨
      ∃ s, dGet n "clarifying_question_ru" = some (Val.str s) ∧ s ≠ "")
    (hqkk : dGet n "clarifying_question_kk" = some Val.none ∨
      ∃ s, dGet n "clarifying_question_kk" = some (Val.str s) ∧ s ≠ "") :
    enforceEmptyBranch n = n := by
  have hpgm : pyGet n "missing_slots" = Val.list [] := by simp [pyGet, hdm]
  simp only [enforceEmptyBranch, dSet_eq_of_dGet hdm]
  rw [hneed, hpgm]
  simp only [show pyTruthy (Val.bool false) = false from rfl,
    show pyTruthy (Val.list []) = false from rfl, Bool.false_and, Bool.not_false,
    Bool.false_eq_true, if_false, if_true]
  rw [qfix_empty hqru, qfix_empty hqkk]
  exact ite_self n

theorem qfix_missing {n : Dict} {key : String} (tmpl : Option String)
    (h : dGet n key = some (optStrToVal tmpl) ∨
      ∃ s, dGet n key = some (Val.str s) ∧ Stripped s ∧ s ≠ "")
    (htmpl : ∀ s, tmpl = some s → Stripped s ∧ s ≠ "") :
    (if ensureString (pyGet n key) "" = "" then dSet n key (optStrToVal tmpl)
      else n) = n := by
  rcases h with hq | ⟨s, hq, hs, hne⟩
  · rcases ht : tmpl with _ | s
    · rw [ht] at hq
      have hq' : dGet n key = some Val.none := hq
      have hpg : pyGet n key = Val.none := by simp [pyGet, hq']
      rw [hpg, show ensureString Val.none "" = "" from rfl, if_pos rfl]
      exact dSet_eq_of_dGet hq'
    · rw [ht] at hq
      obtain ⟨hs, hne⟩ := htmpl s ht
      have hq' : dGet n key = some (Val.str s) := hq
      have hpg : pyGet n key = Val.str s := by simp [pyGet, hq']
      rw [hpg, ensureString_str_self hs hne, if_neg hne]
  · have hpg : pyGet n key = Val.str s := by simp [pyGet, hq]
    rw [hpg, ensureString_str_self hs hne, if_neg hne]

theorem mb_fixed (n : Dict) (M : List String)
    (hneed : dGet n "need_clarification" = some (Val.bool true))
    (hdm : dGet n "missing_slots" = some (Val.list (M.map Val.str)))
    (hqru : dGet n "clarifying_question_ru"
        = some (optStrToVal (clarificationRu (M.headD ""))) ∨
      ∃ s, dGet n "clarifying_question_ru" = some (Val.str s) ∧ Stripped s ∧ s ≠ "")
    (hqkk : dGet n "clarifying_question_kk"
        = some (optStrToVal (clarificationKk (M.headD ""))) ∨
      ∃ s, dGet n "clarifying_question_kk" = some (Val.str s) ∧ Stripped s ∧ s ≠ "") :
    enforceMissingBranch n M = n := by
  simp only [enforceMissingBranch, dSet_eq_of_dGet hneed, dSet_eq_of_dGet hdm]
  rw [qfix_missing _ hqru (fun s hs => clarificationRu_ok hs),
    qfix_missing _ hqkk (fun s hs => clarificationKk_ok hs)]

/-! ## Claim C5: the candidate pools ignore the Enforcer edits -/

theorem routeCandidates_enforce (n : Dict) (p : AnalyzeRequest) :
    routeCandidates (enforceMandatorySlots n p) p = routeCandidates n p := by
  unfold routeCandidates extractedGet
  rw [enforce_pyGet_other n p (by decide) (by decide) (by decide) (by decide),
    enforce_pyGet_other n p (by decide) (by decide) (by decide) (by decide)]

theorem placeCandidates_enforce (n : Dict) (p : AnalyzeRequest) :
    placeCandidates (enforceMandatorySlots n p) p = placeCandidates n p := by
  unfold placeCandidates extractedGet
  rw [enforce_pyGet_other n p (by decide) (by decide) (by decide) (by decide),
    enforce_pyGet_other n p (by decide) (by decide) (by decide) (by decide)]

theorem timeCandidates_enforce (n : Dict) (p : AnalyzeRequest) :
    timeCandidates (enforceMandatorySlots n p) p = timeCandidates n p := by
  unfold timeCandidates
  rw [enforce_pyGet_other n p (by decide) (by decide) (by decide) (by decide)]

theorem mandatoryMissing_enforce (n : Dict) (p : AnalyzeRequest) :
    mandatoryMissing (enforceMandatorySlots n p) p = mandatoryMissing n p := by
  unfold mandatoryMissing
  rw [routeCandidates_enforce, placeCandidates_enforce, timeCandidates_enforce]

theorem existingMissing_dGet {n : Dict} {ms : List String}
    (h : dGet n "missing_slots" = some (Val.list (ms.map Val.str)))
    (hms : ∀ s ∈ ms, Stripped s ∧ s ≠ "") :
    existingMissing n = ms := by
  unfold existingMissing
  rw [show pyGet n "missing_slots" = Val.list (ms.map Val.str) from by simp [pyGet, h]]
  rw [ensureStrList_roundtrip hms]
  rw [List.filter_eq_self.mpr (fun s hs => by simp [(hms s hs).2])]

/-! ## Claim C5: the Enforcer fixes its own output -/

theorem enforce_fix (data : Dict) (p : AnalyzeRequest) :
    enforceMandatorySlots (normalizeModelPayload data p) p
      = normalizeModelPayload data p := by
  by_cases hM : enforceMissing (normalizePre data p) p = []
  case pos =>
    have hD : normalizeModelPayload data p
        = enforceEmptyBranch (normalizePre data p) := by
      unfold normalizeModelPayload
      rw [enforce_eq_branches, if_pos (by simp [hM])]
    have hmmN : mandatoryMissing (normalizePre data p) p = [] := by
      have h0 := hM
      unfold enforceMissing at h0
      rw [appendMandatory_eq] at h0
      rcases List.append_eq_nil.mp h0 with ⟨hF, hG⟩
      by_contra hne
      obtain ⟨s, hs⟩ := List.exists_mem_of_ne_nil _ hne
      have hsm := mandatoryMissing_subset _ p s hs
      have hcontains : (mandatoryMissing (normalizePre data p) p).contains s = true := by
        simpa using hs
      have hmem : s ∈ MANDATORY_SLOTS.filter (fun slot =>
          (mandatoryMissing (normalizePre data p) p).contains slot
          && !(filterExist (existingMissing (normalizePre data p))
              (mandatoryMissing (normalizePre data p) p)).contains slot) := by
        rw [List.mem_filter]
        refine ⟨hsm, ?_⟩
        rw [Bool.and_eq_true]
        refine ⟨hcontains, ?_⟩
        rw [hF]
        rfl
      rw [hG] at hmem
      cases hmem
    have hE0 : existingMissing (normalizeModelPayload data p) = [] := by
      rw [hD]
      exact @existingMissing_dGet _ [] (eb_dGet_missing _) (by simp)
    have hM2 : enforceMissing (normalizeModelPayload data p) p = [] := by
      unfold enforceMissing
      rw [show mandatoryMissing (normalizeModelPayload data p) p
          = mandatoryMissing (normalizePre data p) p from by
        unfold normalizeModelPayload
        exact mandatoryMissing_enforce _ _]
      rw [hmmN, hE0]
      rfl
    rw [enforce_eq_branches, if_pos (by simp [hM2]), hD]
    refine eb_fixed _ (eb_dGet_missing _) ?_ ?_ ?_
    · rw [eb_need]
      rw [show pyGet (normalizePre data p) "need_clarification"
          = Val.bool (pyTruthy (pyGet data "need_clarification")) from by
        simp [pyGet, normalizePre_dGet_need data p]]
      cases hb : pyTruthy (pyGet data "need_clarification") <;> simp [pyTruthy]
    · rcases preQ_qru data p with h | ⟨s, hg, hs, hne⟩
      · left
        rw [eb_dGet_qru, h]
        simp [pyTruthy]
      · right
        refine ⟨s, ?_, hne⟩
        rw [eb_dGet_qru,
          show pyGet (normalizePre data p) "clarifying_question_ru" = Val.str s from by
            simp [pyGet, hg]]
        rw [if_pos (by simp [pyTruthy, hne])]
        exact hg
    · rcases preQ_qkk data p with h | ⟨s, hg, hs, hne⟩
      · left
        rw [eb_dGet_qkk, h]
        simp [pyTruthy]
      · right
        refine ⟨s, ?_, hne⟩
        rw [eb_dGet_qkk,
          show pyGet (normalizePre data p) "clarifying_question_kk" = Val.str s from by
            simp [pyGet, hg]]
        rw [if_pos (by simp [pyTruthy, hne])]
        exact hg
  case neg =>
    have hD : normalizeModelPayload data p
        = enforceMissingBranch (normalizePre data p)
            (enforceMissing (normalizePre data p) p) := by
      unfold normalizeModelPayload
      rw [enforce_eq_branches, if_neg (by simpa [List.isEmpty_iff] using hM)]
    have hE0 : existingMissing (normalizeModelPayload data p)
        = enforceMissing (normalizePre data p) p := by
      rw [hD]
      exact existingMissing_dGet (mb_dGet_missing _ _) (enforceMissing_ok _ _)
    have hM2 : enforceMissing (normalizeModelPayload data p) p
        = enforceMissing (normalizePre data p) p := by
      show appendMandatory (mandatoryMissing (normalizeModelPayload data p) p)
          (filterExist (existingMissing (normalizeModelPayload data p))
            (mandatoryMissing (normalizeModelPayload data p) p))
        = enforceMissing (normalizePre data p) p
      rw [show mandatoryMissing (normalizeModelPayload data p) p
          = mandatoryMissing (normalizePre data p) p from by
        unfold normalizeModelPayload
        exact mandatoryMissing_enforce _ _]
      rw [hE0]
      exact enforceMissing_fixpoint _ _ (mandatoryMissing_subset _ p)
    rw [enforce_eq_branches, if_neg (by
      rw [hM2]
      simpa [List.isEmpty_iff] using hM), hM2, hD]
    refine mb_fixed _ _ (mb_dGet_need _ _) (mb_dGet_missing _ _) ?_ ?_
    · by_cases hc : ensureString
          (pyGet (normalizePre data p) "clarifying_question_ru") "" = ""
      · left
        rw [mb_dGet_qru, if_pos hc]
      · rcases preQ_qru data p with h | ⟨s, hg, hs, hne⟩
        · exact absurd (show ensureString
            (pyGet (normalizePre data p) "clarifying_question_ru") "" = "" from by
              rw [h]; rfl) hc
        · exact Or.inr ⟨s, by rw [mb_dGet_qru, if_neg hc]; exact hg, hs, hne⟩
    · by_cases hc : ensureString
          (pyGet (normalizePre data p) "clarifying_question_kk") "" = ""
      · left
        rw [mb_dGet_qkk, if_pos hc]
      · rcases preQ_qkk data p with h | ⟨s, hg, hs, hne⟩
        · exact absurd (show ensureString
            (pyGet (normalizePre data p) "clarifying_question_kk") "" = "" from by
              rw [h]; rfl) hc
        · exact Or.inr ⟨s, by rw [mb_dGet_qkk, if_neg hc]; exact hg, hs, hne⟩

/-- Claim C5: normalization is idempotent — running the Schema Normalizer
(including its final Enforcer pass) on the record it produced for the same
request returns exactly the same record. -/
theorem normalize_idempotent (data : Dict) (p : AnalyzeRequest) :
    normalizeModelPayload (normalizeModelPayload data p) p
      = normalizeModelPayload data p := by
  show enforceMandatorySlots (normalizePre (normalizeModelPayload data p) p) p
      = normalizeModelPayload data p
  rw [normalizePre_fixed (normalizeModelPayload data p) p (nmp_need data p)
    (nmp_missing data p) (nmp_pri data p) (nmp_tup data p) (nmp_rk data p)
    (nmp_rr data p) (nmp_lang data p) (nmp_ex data p) (nmp_qkk data p)
    (nmp_qru data p)]
  exact enforce_fix data p

end Pipeline

